import Mathlib

/-!
# Sprite animation playback (client/widgets/Images.cpp)

A shallow embedding of `CAnimImage`, `CShowableAnim` and `CCreatureAnim`.

* The animation resource `CAnimation` (the frame store) is an external
  collaborator.  Every call made on it, every draw, every log line and every
  callback invocation is appended to an event trace carried by the object, so
  that statements such as "no load or unload call is made" can be read off the
  trace.
* `size_t` members are natural numbers, with `% sizeMod` at the two places
  where the code adds one to them; the tick counter is reduced `% ui32Mod`.
* Values that are declared in headers (flag bits, enumerator values, the
  default argument of `rotate`) are collected in `Decls` and every definition
  is parametric in them.
-/

namespace Images

/-- Modulus of `size_t` arithmetic. -/
def sizeMod : Nat := 2 ^ 64

/-- Modulus of `ui32` arithmetic (the tick counter `value` and `frameDelay`). -/
def ui32Mod : Nat := 2 ^ 32

/-- The rectangle type `Rect` used for `pos` and for the source clip. -/
structure Rect where
  x : Int
  y : Int
  w : Int
  h : Int
  deriving DecidableEq, Repr

/-- What the code reads from an `IImage`: its width and height. -/
structure IImage where
  width : Int
  height : Int
  deriving DecidableEq, Repr

/-- Observable effects, in program order.  `load` and `unload` carry the
argument list exactly as written at the call site: `anim->load(frame, group)`
is `load [frame, group]`, `anim->load(Group)` is `load [Group]`. -/
inductive Event where
  | size (group : Nat)
  | load (args : List Nat)
  | unload (args : List Nat)
  | loadGroup (group : Nat)
  | unloadGroup (group : Nat)
  | getImage (frame : Nat) (group : Nat)
  | draw (frame : Nat) (group : Nat) (x : Int) (y : Int) (src : Option Rect) (alpha : Option Nat)
  | playerColored (frame : Nat) (group : Nat) (player : Int)
  | logError (group : Nat) (frame : Nat)
  | callback
  deriving DecidableEq, Repr

/-- The frame store `CAnimation` as seen from Images.cpp.  `size` is the frame
count of a group; `getImage` may depend on the calls made so far (an image is
only there once it has been loaded), so it receives the trace. -/
structure CAnimation where
  size : Nat → Nat
  getImage : List Event → Nat → Nat → Option IImage

/-- Values declared in Images.h and used by Images.cpp: the `EFlags` bits, the
`EAnimType` enumerators named in the file, and the default of the second
parameter of `rotate`. -/
structure Decls where
  BASE : Nat
  HORIZONTAL_FLIP : Nat
  VERTICAL_FLIP : Nat
  USE_RLE : Nat
  PLAYER_COLORED : Nat
  PLAY_ONCE : Nat
  MOVING : Nat
  HOLDING : Nat
  HITTED : Nat
  DEFENCE : Nat
  ATTACK_FRONT : Nat
  CAST_FRONT : Nat
  SHOOT_UP : Nat
  SHOOT_FRONT : Nat
  SHOOT_DOWN : Nat
  TURN_L : Nat
  TURN_R : Nat
  MOVE_START : Nat
  MOVE_END : Nat
  rotateVerticalDefault : Bool

/-! ## CAnimImage -/

/-- Members of `CAnimImage` (the frame store handle `anim` is passed to the
operations; `trace` is the effect log). -/
structure CAnimImage where
  frame : Nat
  group : Nat
  player : Int
  flags : Nat
  pos : Rect
  trace : List Event
  deriving DecidableEq, Repr

/-- `CAnimImage::init()`. -/
def CAnimImage.init (D : Decls) (anim : CAnimation) (s : CAnimImage) : CAnimImage :=
  let s := { s with trace := s.trace ++ [Event.load [s.frame, s.group]] }
  let s := if s.flags &&& D.BASE ≠ 0 then
      { s with trace := s.trace ++ [Event.load [0, s.group]] }
    else s
  let img := anim.getImage s.trace s.frame s.group
  let s := { s with trace := s.trace ++ [Event.getImage s.frame s.group] }
  match img with
  | some i => { s with pos := { s.pos with w := i.width, h := i.height } }
  | none => s

/-- `CAnimImage::CAnimImage(CAnimation *Anim, size_t Frame, size_t Group, int x, int y, ui8 Flags)`;
`pos0` is the position the base class starts with. -/
def CAnimImage.create (D : Decls) (anim : CAnimation) (pos0 : Rect)
    (Frame Group : Nat) (x y : Int) (Flags : Nat) : CAnimImage :=
  CAnimImage.init D anim
    { frame := Frame, group := Group, player := -1, flags := Flags,
      pos := { pos0 with x := pos0.x + x, y := pos0.y + y }, trace := [] }

/-- `CAnimImage::~CAnimImage()`: the object is gone afterwards, what remains
is the trace. -/
def CAnimImage.destroy (D : Decls) (s : CAnimImage) : List Event :=
  let t := s.trace ++ [Event.unload [s.frame, s.group]]
  if s.flags &&& D.BASE ≠ 0 then t ++ [Event.unload [0, s.group]] else t

/-- `CAnimImage::setFrame(size_t Frame, size_t Group)`. -/
def CAnimImage.setFrame (D : Decls) (anim : CAnimation) (s : CAnimImage)
    (Frame Group : Nat) : CAnimImage :=
  if s.frame = Frame ∧ s.group = Group then s
  else
    let s := { s with trace := s.trace ++ [Event.size Group] }
    if anim.size Group > Frame then
      let s := { s with trace := s.trace ++ [Event.load [Frame, Group]] }
      let s := { s with trace := s.trace ++ [Event.unload [s.frame, s.group]] }
      let s := { s with frame := Frame }
      let s := { s with group := Group }
      let img := anim.getImage s.trace s.frame s.group
      let s := { s with trace := s.trace ++ [Event.getImage s.frame s.group] }
      match img with
      | some i =>
        let s := if s.flags &&& D.PLAYER_COLORED ≠ 0 then
            { s with trace := s.trace ++ [Event.playerColored s.frame s.group s.player] }
          else s
        { s with pos := { s.pos with w := i.width, h := i.height } }
      | none => s
    else
      { s with trace := s.trace ++ [Event.logError Group Frame] }

/-! ## CShowableAnim and CCreatureAnim -/

/-- Members of `CShowableAnim`, together with the two members that
`CCreatureAnim` reads in addition (`queue` and `type`), so that the virtual
`reset` of either class acts on the same state.  `type` is read by `addLast`
and `reset` and is assigned nowhere in Images.cpp; it is kept apart from
`group`, which is what `set` assigns.  The `callback` member is passed to the
operations that read it. -/
structure CShowableAnim where
  group : Nat
  frame : Nat
  first : Nat
  last : Nat
  frameDelay : Nat
  value : Nat
  flags : Nat
  xOffset : Int
  yOffset : Int
  alpha : Nat
  pos : Rect
  queue : List Nat
  type : Nat
  trace : List Event
  deriving DecidableEq, Repr

/-- `CShowableAnim::set(size_t Group, size_t from, size_t to)`. -/
def CShowableAnim.set_Group_from_to (anim : CAnimation) (s : CShowableAnim)
    (Group From To : Nat) : Bool × CShowableAnim :=
  let max := anim.size Group
  let s := { s with trace := s.trace ++ [Event.size Group] }
  let max := if To < max then To else max
  if max < From ∨ max = 0 then (false, s)
  else
    let s := { s with trace := s.trace ++ [Event.load [Group]] }
    let s := { s with trace := s.trace ++ [Event.unload [s.group]] }
    let s := { s with group := Group }
    let s := { s with first := From }
    let s := { s with frame := s.first }
    let s := { s with last := max }
    let s := { s with value := 0 }
    (true, s)

/-- `CShowableAnim::set(size_t Group)`. -/
def CShowableAnim.set_Group (anim : CAnimation) (s : CShowableAnim)
    (Group : Nat) : Bool × CShowableAnim :=
  let s := { s with trace := s.trace ++ [Event.size Group] }
  if anim.size Group = 0 then (false, s)
  else
    let s := if s.group ≠ Group then
        let s := { s with trace := s.trace ++ [Event.loadGroup Group] }
        let s := { s with trace := s.trace ++ [Event.unloadGroup s.group] }
        let s := { s with first := 0 }
        let s := { s with group := Group }
        { s with last := anim.size Group, trace := s.trace ++ [Event.size Group] }
      else s
    let s := { s with value := 0 }
    let s := { s with frame := s.value }
    (true, s)

/-- `CShowableAnim::reset()`. -/
def CShowableAnim.reset (callback : Option (CShowableAnim → CShowableAnim))
    (s : CShowableAnim) : CShowableAnim :=
  let s := { s with value := 0 }
  let s := { s with frame := s.first }
  match callback with
  | some cb => cb { s with trace := s.trace ++ [Event.callback] }
  | none => s

/-- `CShowableAnim::blitImage(size_t frame, size_t group, SDL_Surface *to)`. -/
def CShowableAnim.blitImage (anim : CAnimation) (s : CShowableAnim)
    (frame group : Nat) : CShowableAnim :=
  let src : Rect := { x := s.xOffset, y := s.yOffset, w := s.pos.w, h := s.pos.h }
  let img := anim.getImage s.trace frame group
  let s := { s with trace := s.trace ++ [Event.getImage frame group] }
  match img with
  | some _ =>
    { s with trace := s.trace ++
        [Event.draw frame group (s.pos.x - s.xOffset) (s.pos.y - s.yOffset) (some src) (some s.alpha)] }
  | none => s

/-- `CShowableAnim::showAll(SDL_Surface * to)`. -/
def CShowableAnim.showAll (D : Decls) (anim : CAnimation) (s : CShowableAnim) : CShowableAnim :=
  let s := if s.flags &&& D.BASE ≠ 0 then s.blitImage anim s.first s.group else s
  s.blitImage anim s.frame s.group

/-- `CShowableAnim::show(SDL_Surface * to)`; `reset` is the virtual `reset()`
of the object. -/
def CShowableAnim.show (D : Decls) (anim : CAnimation)
    (reset : CShowableAnim → CShowableAnim) (s : CShowableAnim) : CShowableAnim :=
  let s := if s.flags &&& D.BASE ≠ 0 then s.blitImage anim s.first s.group else s
  let s := s.blitImage anim s.frame s.group
  if s.flags &&& D.PLAY_ONCE ≠ 0 ∧ (s.frame + 1) % sizeMod = s.last then s
  else
    let s := { s with value := (s.value + 1) % ui32Mod }
    if s.value = s.frameDelay then
      let s := { s with value := 0 }
      let s := { s with frame := (s.frame + 1) % sizeMod }
      if s.frame ≥ s.last then reset s else s
    else s

/-- `CShowableAnim::rotate(bool on, bool vertical)`; `flags` is a `ui8`. -/
def CShowableAnim.rotate (D : Decls) (s : CShowableAnim) (On vertical : Bool) : CShowableAnim :=
  let flag := if vertical then D.VERTICAL_FLIP else D.HORIZONTAL_FLIP
  if On then { s with flags := (s.flags ||| flag) % 256 }
  else { s with flags := s.flags &&& (255 ^^^ (flag % 256)) }

/-- `CCreatureAnim::addLast(EAnimType newType)`. -/
def CCreatureAnim.addLast (D : Decls) (s : CShowableAnim) (newType : Nat) : CShowableAnim :=
  let s := if s.type ≠ D.MOVING ∧ newType = D.MOVING then
      { s with queue := s.queue ++ [D.MOVE_START] }
    else if s.type = D.MOVING ∧ newType ≠ D.MOVING then
      { s with queue := s.queue ++ [D.MOVE_END] }
    else s
  let s := if newType = D.TURN_L ∨ newType = D.TURN_R then
      { s with queue := s.queue ++ [newType] }
    else s
  { s with queue := s.queue ++ [newType] }

/-- The loop `while (!queue.empty()) { at = queue.front(); queue.pop(); if (set(at)) return; }`
of `CCreatureAnim::reset`.  The flag tells whether the loop left through
`return`.  Every round pops one entry, so `fuel = queue.size()` rounds are
enough. -/
def CCreatureAnim.popUntilSet (anim : CAnimation) : Nat → CShowableAnim → Bool × CShowableAnim
  | 0, s => (false, s)
  | fuel + 1, s =>
    match s.queue with
    | [] => (false, s)
    | a :: rest =>
      let r := CShowableAnim.set_Group anim { s with queue := rest } a
      if r.1 then (true, r.2) else CCreatureAnim.popUntilSet anim fuel r.2

/-- `CCreatureAnim::reset()`. -/
def CCreatureAnim.reset (D : Decls) (anim : CAnimation)
    (callback : Option (CShowableAnim → CShowableAnim)) (s : CShowableAnim) : CShowableAnim :=
  let s := if s.type = D.TURN_L ∧ s.queue ≠ [] ∧ s.queue.head? = some D.TURN_L then
      s.rotate D true D.rotateVerticalDefault
    else s
  let s := if s.type = D.TURN_R ∧ s.queue ≠ [] ∧ s.queue.head? = some D.TURN_R then
      s.rotate D false D.rotateVerticalDefault
    else s
  let r := CCreatureAnim.popUntilSet anim s.queue.length s
  if r.1 then r.2
  else
    let s := r.2
    let s := match callback with
      | some cb => cb { s with trace := s.trace ++ [Event.callback] }
      | none => s
    let r := CCreatureAnim.popUntilSet anim s.queue.length s
    if r.1 then r.2
    else (CShowableAnim.set_Group anim r.2 D.HOLDING).2

/-- The range invariant of the playback state, `first ≤ frame < last ≤ size(group)`. -/
def CShowableAnim.rangeInvariant (anim : CAnimation) (s : CShowableAnim) : Prop :=
  s.first ≤ s.frame ∧ s.frame < s.last ∧ s.last ≤ anim.size s.group

instance (anim : CAnimation) (s : CShowableAnim) :
    Decidable (CShowableAnim.rangeInvariant anim s) := by
  unfold CShowableAnim.rangeInvariant
  infer_instance

/-- `CShowableAnim::~CShowableAnim()`: the object is gone afterwards, what
remains is the trace. -/
def CShowableAnim.destroy (s : CShowableAnim) : List Event :=
  s.trace ++ [Event.unloadGroup s.group]

/-- `creaPreviewList` of `CCreatureAnim::loopPreview`. -/
def CCreatureAnim.creaPreviewList (D : Decls) : List Nat :=
  [D.HOLDING, D.HITTED, D.DEFENCE, D.ATTACK_FRONT, D.CAST_FRONT]

/-- `machPreviewList` of `CCreatureAnim::loopPreview`. -/
def CCreatureAnim.machPreviewList (D : Decls) : List Nat :=
  [D.HOLDING, D.MOVING, D.SHOOT_UP, D.SHOOT_FRONT, D.SHOOT_DOWN]

/-- The loop `for (size_t i = 0; i < 12/anim->size(type) + 1; i++) addLast(type);`
of `CCreatureAnim::loopPreview`, with the number of rounds still to run.  The
loop condition queries `size(type)` before every round and once more when it
fails. -/
def CCreatureAnim.idleLoop (D : Decls) (type : Nat) : Nat → CShowableAnim → CShowableAnim
  | 0, s => { s with trace := s.trace ++ [Event.size type] }
  | n + 1, s =>
    CCreatureAnim.idleLoop D type n
      (CCreatureAnim.addLast D { s with trace := s.trace ++ [Event.size type] } type)

/-- The list `previewList` that `CCreatureAnim::loopPreview` walks:
`warMachine ? machPreviewList : creaPreviewList`. -/
def CCreatureAnim.previewList (D : Decls) (warMachine : Bool) : List Nat :=
  if warMachine then CCreatureAnim.machPreviewList D else CCreatureAnim.creaPreviewList D

/-- The vector `available` that `CCreatureAnim::loopPreview` builds with
`for (auto & elem : previewList) if (anim->size(elem)) available.push_back(elem);`. -/
def CCreatureAnim.available (D : Decls) (anim : CAnimation) (warMachine : Bool) : List Nat :=
  (CCreatureAnim.previewList D warMachine).filter (fun elem => anim.size elem ≠ 0)

/-- `CCreatureAnim::loopPreview(bool warMachine)`.  `rnd` is the value returned
by `CRandomGenerator::getDefault().nextInt(available.size() * 2 - 1)`.  The
result is `none` when the code divides by zero. -/
def CCreatureAnim.loopPreview (D : Decls) (anim : CAnimation) (rnd : Nat) (warMachine : Bool)
    (s : CShowableAnim) : Option CShowableAnim :=
  let available := CCreatureAnim.available D anim warMachine
  let s := { s with trace := s.trace ++ (CCreatureAnim.previewList D warMachine).map Event.size }
  if h : rnd ≥ available.length then
    let s := { s with trace := s.trace ++ [Event.size D.MOVING] }
    let type := if anim.size D.MOVING = 0 then D.HOLDING else D.MOVING
    if anim.size type = 0 then none
    else some (CCreatureAnim.idleLoop D type (12 / anim.size type + 1) s)
  else
    some (CCreatureAnim.addLast D s (available.get ⟨rnd, Nat.lt_of_not_le h⟩))

/-- The driver of the queueing scenario: call `reset()` as long as the queue
is not empty, and collect the group that is active after each call. -/
def CCreatureAnim.resetUntilDrained (D : Decls) (anim : CAnimation)
    (callback : Option (CShowableAnim → CShowableAnim)) :
    Nat → CShowableAnim → List Nat × CShowableAnim
  | 0, s => ([], s)
  | fuel + 1, s =>
    if s.queue = [] then ([], s)
    else
      let t := CCreatureAnim.reset D anim callback s
      let r := CCreatureAnim.resetUntilDrained D anim callback fuel t
      (t.group :: r.1, r.2)

/-! ## Reference accounting over the life of a CAnimImage -/

/-- The life of a `CAnimImage`: construction, a sequence of
`setFrame(Frame, Group)` calls, destruction.  The result is the complete
trace. -/
def CAnimImage.lifetime (D : Decls) (anim : CAnimation) (pos0 : Rect)
    (Frame Group : Nat) (x y : Int) (Flags : Nat) (calls : List (Nat × Nat)) : List Event :=
  CAnimImage.destroy D
    (calls.foldl (fun s c => CAnimImage.setFrame D anim s c.1 c.2)
      (CAnimImage.create D anim pos0 Frame Group x y Flags))

/-- Number of references to the pair `p = [frame, group]` that the view holds:
one for the current frame, one more for the base frame when BASE is set. -/
def CAnimImage.held (D : Decls) (s : CAnimImage) (p : List Nat) : Nat :=
  (if [s.frame, s.group] = p then 1 else 0) +
    (if s.flags &&& D.BASE ≠ 0 ∧ [0, s.group] = p then 1 else 0)

/-- Loads recorded so far are the unloads recorded so far plus the references
still held. -/
def CAnimImage.accounted (D : Decls) (s : CAnimImage) : Prop :=
  ∀ p, s.trace.count (Event.load p) = s.trace.count (Event.unload p) + s.held D p

/-! ## Concrete data used to instantiate the statements -/

/-- A numbering of the flags and animation types: flags are distinct bits,
animation types are distinct group numbers. -/
def exampleDecls : Decls :=
  { BASE := 1, HORIZONTAL_FLIP := 2, VERTICAL_FLIP := 4, USE_RLE := 8,
    PLAYER_COLORED := 16, PLAY_ONCE := 32,
    MOVING := 0, HOLDING := 2, HITTED := 3, DEFENCE := 4, ATTACK_FRONT := 12,
    CAST_FRONT := 18, SHOOT_UP := 14, SHOOT_FRONT := 15, SHOOT_DOWN := 16,
    TURN_L := 7, TURN_R := 8, MOVE_START := 20, MOVE_END := 21,
    rotateVerticalDefault := false }

/-- A frame store in which groups 0 and 1 have three frames, group 2 has one
frame, every other group is empty, and every existing frame has a 10x20 image. -/
def exampleAnim : CAnimation :=
  { size := fun g => if g = 0 ∨ g = 1 then 3 else if g = 2 then 1 else 0,
    getImage := fun _ f g =>
      if f < (if g = 0 ∨ g = 1 then 3 else if g = 2 then 1 else 0) then
        some { width := 10, height := 20 }
      else none }

/-- A playback state on group 0, playing the whole group with delay 4. -/
def exampleState : CShowableAnim :=
  { group := 0, frame := 0, first := 0, last := 3, frameDelay := 4, value := 0,
    flags := 0, xOffset := 0, yOffset := 0, alpha := 255,
    pos := { x := 0, y := 0, w := 10, h := 20 }, queue := [], type := 2, trace := [] }

/-- A playback state on group 0 restricted to the sub-range `[2, 3)`. -/
def exampleSubrangeState : CShowableAnim :=
  { exampleState with frame := 2, first := 2 }

/-- An image view on frame 1 of group 0, as the constructor leaves it. -/
def exampleImage : CAnimImage :=
  CAnimImage.create exampleDecls exampleAnim { x := 0, y := 0, w := 0, h := 0 } 1 0 0 0 0

/-- A playback state like `exampleState`, with the PLAY_ONCE flag, standing on
the last frame of its range. -/
def examplePlayOnceState : CShowableAnim :=
  { exampleState with flags := 32, frame := 2 }

/-- A creature animation on group 2 whose queue starts with the empty group 5,
followed by groups 1 and 2. -/
def exampleQueuedState : CShowableAnim :=
  { exampleState with group := 2, last := 1, queue := [5, 1, 2] }

/-- A frame store for the queueing scenario: HOLDING (group 2) has one frame,
MOVING (group 0) has four, `startFrames` is the frame count of MOVE_START
(group 20), every other group is empty. -/
def scenarioAnim (startFrames : Nat) : CAnimation :=
  { size := fun g => if g = 2 then 1 else if g = 0 then 4 else if g = 20 then startFrames else 0,
    getImage := fun _ _ _ => none }

/-- The start of the queueing scenario: on HOLDING at frame 0 with delay 4 and
an empty queue. -/
def scenarioState : CShowableAnim :=
  { exampleState with group := 2, last := 1, type := 2 }

/-- A frame store without a HOLDING animation: only group 0 has frames. -/
def exampleAnimNoHolding : CAnimation :=
  { size := fun g => if g = 0 then 3 else 0,
    getImage := fun _ _ _ => none }

/-- A playback state in the middle of group 0, with an empty queue. -/
def exampleMidState : CShowableAnim :=
  { exampleState with frame := 1, value := 2 }

/-- A frame store for the idle preview: HOLDING (group 2) has one frame,
ATTACK_FRONT (group 12) has six, every other group is empty. -/
def previewAnim : CAnimation :=
  { size := fun g => if g = 2 then 1 else if g = 12 then 6 else 0,
    getImage := fun _ _ _ => none }

end Images

/-!
# Reading "list of item constraints" fields (lib/serializer/JsonDeserializer.cpp)

`JsonNode` is not part of the file: what `serializeLIC` reads from the node is
collected in `LICField`.  A `std::set<si32>` is a duplicate-free list, read
through membership only; a `std::vector<bool>` is a list of booleans.
-/

namespace JsonDeserializer

/-- What `serializeLIC` reads from `current->operator[](fieldName)`: the result
of `isNull()` and, in order, the `String()` of every entry of
`field["anyOf"].Vector()`, `field["allOf"].Vector()` and
`field["noneOf"].Vector()`. -/
structure LICField where
  isNull : Bool
  anyOf : List String
  allOf : List String
  noneOf : List String

/-- The struct `LICSet`, as `serializeLIC` uses it: the constant `standard`
set, the `decoder` from identifiers to `si32` ids, and the three result
sets. -/
structure LICSet where
  standard : List Int
  decoder : String → Int
  all : List Int
  any : List Int
  none : List Int

/-- `readLICPart(const JsonNode & part, const TDecoder & decoder, const bool val,
std::vector<bool> & value)`.  The second component collects the ids reported
as out of bounds. -/
def readLICPart_vector (part : List String) (decoder : String → Int) (val : Bool)
    (value : List Bool × List Int) : List Bool × List Int :=
  part.foldl
    (fun acc identifier =>
      let rawId := decoder identifier
      if rawId ≥ 0 then
        if rawId.toNat < acc.1.length then (acc.1.set rawId.toNat val, acc.2)
        else (acc.1, acc.2 ++ [rawId])
      else acc)
    value

/-- `readLICPart(const JsonNode & part, const TDecoder & decoder, std::set<si32> & value)`. -/
def readLICPart_set (part : List String) (decoder : String → Int) (value : List Int) :
    List Int :=
  part.foldl
    (fun acc identifier =>
      let rawId := decoder identifier
      if rawId ≠ -1 then acc.insert rawId else acc)
    value

/-- `serializeLIC(fieldName, decoder, encoder, standard, value)` on
`std::vector<bool>`; the encoder is not used when reading.  The result is the
new `value` and the ids reported as out of bounds. -/
def serializeLIC_vector (field : LICField) (decoder : String → Int)
    (standard value : List Bool) : List Bool × List Int :=
  if field.isNull then (value, [])
  else
    let r : List Bool × List Int :=
      if field.anyOf.isEmpty ∧ field.allOf.isEmpty then
        (standard, [])
      else
        let value := List.replicate standard.length false
        let r := readLICPart_vector field.anyOf decoder true (value, [])
        readLICPart_vector field.allOf decoder true r
    readLICPart_vector field.noneOf decoder false r

/-- `serializeLIC(const std::string & fieldName, LICSet & value)`. -/
def serializeLIC_LICSet (field : LICField) (value : LICSet) : LICSet :=
  let value := { value with all := [] }
  let value := { value with none := [] }
  let value :=
    if field.anyOf.isEmpty then
      { value with any := value.standard }
    else
      let value := { value with any := [] }
      let value := { value with any := readLICPart_set field.anyOf value.decoder value.any }
      { value with none := (value.standard.foldl
          (fun acc item => if item ∈ value.any then acc else acc.insert item) value.none) }
  let value := { value with all := readLICPart_set field.allOf value.decoder value.all }
  let value := { value with none := readLICPart_set field.noneOf value.decoder value.none }
  let value := { value with all := value.all.filter (fun item => ¬ item ∈ value.none) }
  let value := { value with any := value.any.filter (fun item => ¬ item ∈ value.none) }
  { value with any := value.all.foldl (fun acc item => acc.insert item) value.any }

/-- The ids that the entries of `part` decode to. -/
def decoded (part : List String) (decoder : String → Int) (id : Int) : Prop :=
  ∃ identifier ∈ part, decoder identifier = id

instance (part : List String) (decoder : String → Int) (id : Int) :
    Decidable (decoded part decoder id) := by
  unfold decoded
  infer_instance

/-- A decoder for the examples: "a", "b", "c" are the ids 0, 1, 2, "far" is
the id 9 and every other identifier is unknown. -/
def exampleDecoder (identifier : String) : Int :=
  if identifier = "a" then 0 else if identifier = "b" then 1
  else if identifier = "c" then 2 else if identifier = "far" then 9 else -1

/-- A field in restrictive mode. -/
def exampleField : LICField :=
  { isNull := false, anyOf := ["a", "b"], allOf := ["c"], noneOf := ["b", "far", "zzz"] }

/-- A `LICSet` over the standard ids 0 to 3. -/
def exampleLICSet : LICSet :=
  { standard := [0, 1, 2, 3], decoder := exampleDecoder, all := [7], any := [8], none := [9] }

end JsonDeserializer

namespace Images

/-! ## CShowableAnim::set -/

/-- C1: if `min(to, size(Group)) < from` or `size(Group) == 0`, then
`set(Group, from, to)` returns false; every member keeps its value and the
only call made on the frame store is the `size(Group)` query (no load, no
unload). -/
theorem set_Group_from_to_rejects (anim : CAnimation) (s : CShowableAnim)
    (Group From To : Nat)
    (h : min To (anim.size Group) < From ∨ anim.size Group = 0) :
    CShowableAnim.set_Group_from_to anim s Group From To
      = (false, { s with trace := s.trace ++ [Event.size Group] }) := by
  unfold CShowableAnim.set_Group_from_to
  have hc : (if To < anim.size Group then To else anim.size Group) < From ∨
      (if To < anim.size Group then To else anim.size Group) = 0 := by
    split_ifs with h1
    · rcases h with h | h
      · left; omega
      · omega
    · rcases h with h | h
      · left; omega
      · right; exact h
  simp only [hc, if_true]

/-- Instance of the rejection law: `set(0, 2, 1)` on a three-frame group. -/
theorem set_Group_from_to_rejects_witness :
    (min 1 (exampleAnim.size 0) < 2 ∨ exampleAnim.size 0 = 0) ∧
    CShowableAnim.set_Group_from_to exampleAnim exampleState 0 2 1
      = (false, { exampleState with trace := exampleState.trace ++ [Event.size 0] }) :=
  ⟨by decide, set_Group_from_to_rejects exampleAnim exampleState 0 2 1 (by decide)⟩

/-- C9: when `set(Group, from, to)` returns true, afterwards `group == Group`,
`frame == first == from`, `value == 0` and `last == min(to, size(Group))`; in
particular `last == size(Group)` whenever `to >= size(Group)`. -/
theorem set_Group_from_to_accepts (anim : CAnimation) (s : CShowableAnim)
    (Group From To : Nat)
    (h : (CShowableAnim.set_Group_from_to anim s Group From To).1 = true) :
    (CShowableAnim.set_Group_from_to anim s Group From To).2.group = Group ∧
    (CShowableAnim.set_Group_from_to anim s Group From To).2.frame = From ∧
    (CShowableAnim.set_Group_from_to anim s Group From To).2.first = From ∧
    (CShowableAnim.set_Group_from_to anim s Group From To).2.value = 0 ∧
    (CShowableAnim.set_Group_from_to anim s Group From To).2.last = min To (anim.size Group) ∧
    (anim.size Group ≤ To →
      (CShowableAnim.set_Group_from_to anim s Group From To).2.last = anim.size Group) := by
  unfold CShowableAnim.set_Group_from_to at h ⊢
  by_cases hc : (if To < anim.size Group then To else anim.size Group) < From ∨
      (if To < anim.size Group then To else anim.size Group) = 0
  · simp [hc] at h
  · simp only [hc, if_false]
    refine ⟨trivial, trivial, trivial, trivial, ?_, ?_⟩
    · show (if To < anim.size Group then To else anim.size Group) = min To (anim.size Group)
      split_ifs with h1
      · omega
      · omega
    · intro hle
      show (if To < anim.size Group then To else anim.size Group) = anim.size Group
      split_ifs with h1
      · omega
      · rfl

/-- Instance of the acceptance law: `set(1, 1, 7)` on a three-frame group. -/
theorem set_Group_from_to_accepts_witness :
    (CShowableAnim.set_Group_from_to exampleAnim exampleState 1 1 7).1 = true ∧
    (CShowableAnim.set_Group_from_to exampleAnim exampleState 1 1 7).2.group = 1 ∧
    (CShowableAnim.set_Group_from_to exampleAnim exampleState 1 1 7).2.frame = 1 ∧
    (CShowableAnim.set_Group_from_to exampleAnim exampleState 1 1 7).2.first = 1 ∧
    (CShowableAnim.set_Group_from_to exampleAnim exampleState 1 1 7).2.value = 0 ∧
    (CShowableAnim.set_Group_from_to exampleAnim exampleState 1 1 7).2.last
      = min 7 (exampleAnim.size 1) ∧
    (exampleAnim.size 1 ≤ 7 →
      (CShowableAnim.set_Group_from_to exampleAnim exampleState 1 1 7).2.last
        = exampleAnim.size 1) :=
  ⟨by decide, set_Group_from_to_accepts exampleAnim exampleState 1 1 7 (by decide)⟩

/-- C10, as stated, fails: group 1 has three frames and the clamped bound
`min(0, 3) = 0` is not less than `from = 0`, yet `set(1, 0, 0)` returns false
and the active group stays 0, because the code also rejects a clamped bound
of zero. -/
theorem set_Group_from_to_zero_bound_rejected :
    0 < exampleAnim.size 1 ∧ ¬ (min 0 (exampleAnim.size 1) < 0) ∧
    (CShowableAnim.set_Group_from_to exampleAnim exampleState 1 0 0).1 = false ∧
    (CShowableAnim.set_Group_from_to exampleAnim exampleState 1 0 0).2.group = 0 := by
  decide

/-- C10 (amended): if the clamped bound `min(to, size(Group))` is positive and
not less than `from`, then `set(Group, from, to)` returns true and the active
group becomes `Group`. -/
theorem set_Group_from_to_succeeds (anim : CAnimation) (s : CShowableAnim)
    (Group From To : Nat)
    (hpos : 0 < min To (anim.size Group))
    (hfrom : From ≤ min To (anim.size Group)) :
    (CShowableAnim.set_Group_from_to anim s Group From To).1 = true ∧
    (CShowableAnim.set_Group_from_to anim s Group From To).2.group = Group := by
  unfold CShowableAnim.set_Group_from_to
  have hc : ¬ ((if To < anim.size Group then To else anim.size Group) < From ∨
      (if To < anim.size Group then To else anim.size Group) = 0) := by
    split_ifs with h1
    · omega
    · omega
  simp only [hc, if_false]
  exact ⟨trivial, trivial⟩

/-- Instance of the success condition: `set(1, 1, 7)` on a three-frame group. -/
theorem set_Group_from_to_succeeds_witness :
    (0 < min 7 (exampleAnim.size 1) ∧ 1 ≤ min 7 (exampleAnim.size 1)) ∧
    (CShowableAnim.set_Group_from_to exampleAnim exampleState 1 1 7).1 = true ∧
    (CShowableAnim.set_Group_from_to exampleAnim exampleState 1 1 7).2.group = 1 :=
  ⟨by decide,
   set_Group_from_to_succeeds exampleAnim exampleState 1 1 7 (by decide) (by decide)⟩

/-- C2, as stated, fails for both overloads.  `set(0, 3, 3)` on a three-frame
group returns true with `frame == last == 3`; and `set(0)` on a state that is
already on group 0 with the sub-range `[2, 3)` returns true with
`frame == 0 < first == 2`.  Both start from a state in which the invariant
holds. -/
theorem set_breaks_rangeInvariant :
    (CShowableAnim.rangeInvariant exampleAnim exampleState ∧
      (CShowableAnim.set_Group_from_to exampleAnim exampleState 0 3 3).1 = true ∧
      ¬ CShowableAnim.rangeInvariant exampleAnim
          (CShowableAnim.set_Group_from_to exampleAnim exampleState 0 3 3).2) ∧
    (CShowableAnim.rangeInvariant exampleAnim exampleSubrangeState ∧
      (CShowableAnim.set_Group exampleAnim exampleSubrangeState 0).1 = true ∧
      ¬ CShowableAnim.rangeInvariant exampleAnim
          (CShowableAnim.set_Group exampleAnim exampleSubrangeState 0).2) := by
  decide

/-- C2 (amended): after a successful `set(Group, from, to)`,
`first == frame <= last <= size(group)` and `last > 0`, and the full invariant
`first <= frame < last <= size(group)` holds exactly when
`from < min(to, size(Group))`.  After a successful `set(Group)` from a state in
which the invariant held, `frame < last <= size(group)`, and the full invariant
holds whenever `Group` differs from the previous group or `first` was 0. -/
theorem set_rangeInvariant (anim : CAnimation) (s : CShowableAnim) (Group From To : Nat) :
    ((CShowableAnim.set_Group_from_to anim s Group From To).1 = true →
      (CShowableAnim.set_Group_from_to anim s Group From To).2.first
        = (CShowableAnim.set_Group_from_to anim s Group From To).2.frame ∧
      (CShowableAnim.set_Group_from_to anim s Group From To).2.frame
        ≤ (CShowableAnim.set_Group_from_to anim s Group From To).2.last ∧
      (CShowableAnim.set_Group_from_to anim s Group From To).2.last
        ≤ anim.size (CShowableAnim.set_Group_from_to anim s Group From To).2.group ∧
      0 < (CShowableAnim.set_Group_from_to anim s Group From To).2.last ∧
      (CShowableAnim.rangeInvariant anim (CShowableAnim.set_Group_from_to anim s Group From To).2
        ↔ From < min To (anim.size Group))) ∧
    ((CShowableAnim.set_Group anim s Group).1 = true →
      CShowableAnim.rangeInvariant anim s →
      (CShowableAnim.set_Group anim s Group).2.frame
        < (CShowableAnim.set_Group anim s Group).2.last ∧
      (CShowableAnim.set_Group anim s Group).2.last
        ≤ anim.size (CShowableAnim.set_Group anim s Group).2.group ∧
      (Group ≠ s.group ∨ s.first = 0 →
        CShowableAnim.rangeInvariant anim (CShowableAnim.set_Group anim s Group).2)) := by
  constructor
  · intro h
    unfold CShowableAnim.set_Group_from_to at h ⊢
    by_cases hc : (if To < anim.size Group then To else anim.size Group) < From ∨
        (if To < anim.size Group then To else anim.size Group) = 0
    · simp [hc] at h
    · simp only [hc, if_false, CShowableAnim.rangeInvariant]
      split_ifs at hc ⊢ with h1
      · refine ⟨trivial, by omega, by omega, by omega, ?_⟩
        constructor
        · intro hh; omega
        · intro hh; omega
      · refine ⟨trivial, by omega, by omega, by omega, ?_⟩
        constructor
        · intro hh; omega
        · intro hh; omega
  · intro h hinv
    unfold CShowableAnim.rangeInvariant at hinv ⊢
    unfold CShowableAnim.set_Group at h ⊢
    by_cases hz : anim.size Group = 0
    · simp [hz] at h
    · by_cases hg : s.group = Group
      · simp only [hz, hg, if_false, ne_eq, not_true_eq_false]
        subst hg
        refine ⟨by omega, by omega, ?_⟩
        intro hh
        rcases hh with hh | hh
        · exact hh.elim
        · omega
      · simp only [hz, hg, if_false, ne_eq, not_false_eq_true, if_true]
        refine ⟨by omega, by omega, ?_⟩
        intro _
        omega

/-- Instance of the range law for both overloads, switching to group 1. -/
theorem set_rangeInvariant_witness :
    ((CShowableAnim.set_Group_from_to exampleAnim exampleState 1 1 7).1 = true ∧
      1 < min 7 (exampleAnim.size 1) ∧
      CShowableAnim.rangeInvariant exampleAnim
        (CShowableAnim.set_Group_from_to exampleAnim exampleState 1 1 7).2) ∧
    ((CShowableAnim.set_Group exampleAnim exampleState 1).1 = true ∧
      CShowableAnim.rangeInvariant exampleAnim exampleState ∧
      (1 ≠ exampleState.group ∨ exampleState.first = 0) ∧
      CShowableAnim.rangeInvariant exampleAnim
        (CShowableAnim.set_Group exampleAnim exampleState 1).2) :=
  ⟨⟨by decide, by decide,
    ((set_rangeInvariant exampleAnim exampleState 1 1 7).1 (by decide)).2.2.2.2.2 (by decide)⟩,
   ⟨by decide, by decide, by decide,
    ((set_rangeInvariant exampleAnim exampleState 1 1 7).2 (by decide) (by decide)).2.2
      (by decide)⟩⟩

/-! ## CCreatureAnim::addLast -/

/-- What `addLast(newType)` does, read on the member `type` that the code
tests (not on `group`): it changes nothing but the queue, keeps the existing
entries in order and appends at the tail.  The appended entries of `newType`
are `newType` once, or twice in all for a turn.  When `type` is not MOVING and
`newType` is MOVING, exactly one MOVE_START stands immediately before them;
when `type` is MOVING and `newType` is not, exactly one MOVE_END stands
immediately before them; in every other case nothing is inserted before
them. -/
theorem addLast_queue (D : Decls) (s : CShowableAnim) (newType : Nat) :
    (s.type ≠ D.MOVING ∧ newType = D.MOVING →
      CCreatureAnim.addLast D s newType
        = { s with queue := s.queue ++ D.MOVE_START ::
              (if newType = D.TURN_L ∨ newType = D.TURN_R then
                [newType, newType] else [newType]) }) ∧
    (s.type = D.MOVING ∧ newType ≠ D.MOVING →
      CCreatureAnim.addLast D s newType
        = { s with queue := s.queue ++ D.MOVE_END ::
              (if newType = D.TURN_L ∨ newType = D.TURN_R then
                [newType, newType] else [newType]) }) ∧
    (¬ (s.type ≠ D.MOVING ∧ newType = D.MOVING) ∧
        ¬ (s.type = D.MOVING ∧ newType ≠ D.MOVING) →
      CCreatureAnim.addLast D s newType
        = { s with queue := s.queue ++
              (if newType = D.TURN_L ∨ newType = D.TURN_R then
                [newType, newType] else [newType]) }) := by
  refine ⟨?_, ?_, ?_⟩
  · intro h
    by_cases ht : newType = D.TURN_L ∨ newType = D.TURN_R
    · simp only [CCreatureAnim.addLast, if_pos h, if_pos ht, List.append_assoc,
        List.singleton_append, List.cons_append, List.nil_append]
    · simp only [CCreatureAnim.addLast, if_pos h, if_neg ht, List.append_assoc,
        List.singleton_append, List.cons_append, List.nil_append]
  · intro h
    have h1 : ¬ (s.type ≠ D.MOVING ∧ newType = D.MOVING) := fun c => c.1 h.1
    by_cases ht : newType = D.TURN_L ∨ newType = D.TURN_R
    · simp only [CCreatureAnim.addLast, if_neg h1, if_pos h, if_pos ht, List.append_assoc,
        List.singleton_append, List.cons_append, List.nil_append]
    · simp only [CCreatureAnim.addLast, if_neg h1, if_pos h, if_neg ht, List.append_assoc,
        List.singleton_append, List.cons_append, List.nil_append]
  · intro h
    by_cases ht : newType = D.TURN_L ∨ newType = D.TURN_R
    · simp only [CCreatureAnim.addLast, if_neg h.1, if_neg h.2, if_pos ht, List.append_assoc,
        List.singleton_append, List.cons_append, List.nil_append]
    · simp only [CCreatureAnim.addLast, if_neg h.1, if_neg h.2, if_neg ht]

/-- Instance: enqueuing MOVING while `type` and `group` are both HOLDING. -/
theorem addLast_queue_witness :
    (scenarioState.type ≠ exampleDecls.MOVING ∧ (0 : Nat) = exampleDecls.MOVING) ∧
    CCreatureAnim.addLast exampleDecls scenarioState 0
      = { scenarioState with queue := [20, 0] } :=
  ⟨by decide, ((addLast_queue exampleDecls scenarioState 0).1 (by decide)).trans (by decide)⟩

/-! ## CAnimImage -/

/-- C7: when `(Frame, Group)` differs from the current pair and
`Frame >= size(Group)`, `setFrame(Frame, Group)` leaves `frame`, `group`,
`flags`, `player` and `pos` as they were; the frame store sees only the
`size(Group)` query (no load, no unload), and exactly one log line is
emitted. -/
theorem setFrame_unavailable (D : Decls) (anim : CAnimation) (s : CAnimImage)
    (Frame Group : Nat)
    (hne : ¬ (s.frame = Frame ∧ s.group = Group))
    (hge : anim.size Group ≤ Frame) :
    CAnimImage.setFrame D anim s Frame Group
      = { s with trace := s.trace ++ [Event.size Group, Event.logError Group Frame] } := by
  unfold CAnimImage.setFrame
  have hgt : ¬ (anim.size Group > Frame) := by omega
  simp only [hne, hgt, if_false, List.append_assoc, List.singleton_append]

/-- Instance of the refusal: `setFrame(5, 0)` on a three-frame group. -/
theorem setFrame_unavailable_witness :
    (¬ (exampleImage.frame = 5 ∧ exampleImage.group = 0) ∧ exampleAnim.size 0 ≤ 5) ∧
    CAnimImage.setFrame exampleDecls exampleAnim exampleImage 5 0
      = { exampleImage with
          trace := exampleImage.trace ++ [Event.size 0, Event.logError 0 5] } :=
  ⟨by decide,
   setFrame_unavailable exampleDecls exampleAnim exampleImage 5 0 (by decide) (by decide)⟩

/-! ## CShowableAnim::show -/

/-- Drawing a frame changes nothing but the trace. -/
theorem blitImage_eq (anim : CAnimation) (s : CShowableAnim) (f g : Nat) :
    s.blitImage anim f g = { s with trace := (s.blitImage anim f g).trace } := by
  simp only [CShowableAnim.blitImage]
  split <;> rfl

/-- Drawing appends to the trace, and never a callback event. -/
theorem blitImage_trace (anim : CAnimation) (s : CShowableAnim) (f g : Nat) :
    ∃ evs, (s.blitImage anim f g).trace = s.trace ++ evs ∧ Event.callback ∉ evs := by
  simp only [CShowableAnim.blitImage]
  split
  · exact ⟨[Event.getImage f g, Event.draw f g (s.pos.x - s.xOffset) (s.pos.y - s.yOffset)
      (some { x := s.xOffset, y := s.yOffset, w := s.pos.w, h := s.pos.h }) (some s.alpha)],
      by simp, by simp⟩
  · exact ⟨[Event.getImage f g], rfl, by simp⟩

/-- The draw half changes nothing but the trace. -/
theorem showAll_eq (D : Decls) (anim : CAnimation) (s : CShowableAnim) :
    s.showAll D anim = { s with trace := (s.showAll D anim).trace } := by
  unfold CShowableAnim.showAll
  split_ifs with h
  · rw [blitImage_eq anim (s.blitImage anim s.first s.group)]
    rw [blitImage_eq anim s s.first s.group]
  · exact blitImage_eq anim s s.frame s.group

/-- The draw half appends to the trace, and never a callback event. -/
theorem showAll_trace (D : Decls) (anim : CAnimation) (s : CShowableAnim) :
    ∃ evs, (s.showAll D anim).trace = s.trace ++ evs ∧ Event.callback ∉ evs := by
  unfold CShowableAnim.showAll
  split_ifs with h
  · obtain ⟨e1, h1, n1⟩ := blitImage_trace anim s s.first s.group
    obtain ⟨e2, h2, n2⟩ := blitImage_trace anim (s.blitImage anim s.first s.group)
      (s.blitImage anim s.first s.group).frame (s.blitImage anim s.first s.group).group
    refine ⟨e1 ++ e2, ?_, ?_⟩
    · rw [h2, h1, List.append_assoc]
    · simp [n1, n2]
  · exact blitImage_trace anim s s.frame s.group

/-- The timed `show` as the draw half followed by the tick logic, read on the
members of the state before the call. -/
theorem show_eq (D : Decls) (anim : CAnimation) (r : CShowableAnim → CShowableAnim)
    (s : CShowableAnim) :
    s.show D anim r =
      if s.flags &&& D.PLAY_ONCE ≠ 0 ∧ (s.frame + 1) % sizeMod = s.last then s.showAll D anim
      else if (s.value + 1) % ui32Mod = s.frameDelay then
        if (s.frame + 1) % sizeMod ≥ s.last then
          r { s.showAll D anim with value := 0, frame := (s.frame + 1) % sizeMod }
        else { s.showAll D anim with value := 0, frame := (s.frame + 1) % sizeMod }
      else { s.showAll D anim with value := (s.value + 1) % ui32Mod } := by
  have hdef : s.show D anim r =
      (if (s.showAll D anim).flags &&& D.PLAY_ONCE ≠ 0 ∧
          ((s.showAll D anim).frame + 1) % sizeMod = (s.showAll D anim).last then
        s.showAll D anim
      else if ((s.showAll D anim).value + 1) % ui32Mod = (s.showAll D anim).frameDelay then
        if ((s.showAll D anim).frame + 1) % sizeMod ≥ (s.showAll D anim).last then
          r { s.showAll D anim with value := 0, frame := ((s.showAll D anim).frame + 1) % sizeMod }
        else { s.showAll D anim with value := 0, frame := ((s.showAll D anim).frame + 1) % sizeMod }
      else { s.showAll D anim with value := ((s.showAll D anim).value + 1) % ui32Mod }) := rfl
  rw [hdef]
  have hfl : (s.showAll D anim).flags = s.flags := by rw [showAll_eq]
  have hfr : (s.showAll D anim).frame = s.frame := by rw [showAll_eq]
  have hla : (s.showAll D anim).last = s.last := by rw [showAll_eq]
  have hva : (s.showAll D anim).value = s.value := by rw [showAll_eq]
  have hfd : (s.showAll D anim).frameDelay = s.frameDelay := by rw [showAll_eq]
  rw [hfl, hfr, hla, hva, hfd]

/-- Repeating the draw half only extends the trace by draw events. -/
theorem showAll_iterate (D : Decls) (anim : CAnimation) (s : CShowableAnim) (n : Nat) :
    ∃ evs, (CShowableAnim.showAll D anim)^[n] s = { s with trace := s.trace ++ evs } ∧
      Event.callback ∉ evs := by
  induction n with
  | zero => exact ⟨[], by simp, by simp⟩
  | succ n ih =>
    obtain ⟨evs, h, hn⟩ := ih
    obtain ⟨e1, h1, n1⟩ := showAll_trace D anim { s with trace := s.trace ++ evs }
    refine ⟨evs ++ e1, ?_, by simp [hn, n1]⟩
    rw [Function.iterate_succ_apply', h, showAll_eq, h1, List.append_assoc]

/-- Below the delay, `k` timed calls only count: `value == k`, the trace grows,
nothing else changes. -/
theorem show_iterate_below (D : Decls) (anim : CAnimation) (s : CShowableAnim)
    (hv : s.value = 0) (hd : s.frameDelay < ui32Mod)
    (hP : ¬ (s.flags &&& D.PLAY_ONCE ≠ 0 ∧ (s.frame + 1) % sizeMod = s.last))
    (k : Nat) (hk : k < s.frameDelay) :
    ∃ T, (CShowableAnim.show D anim (CShowableAnim.reset none))^[k] s
      = { s with value := k, trace := T } := by
  induction k with
  | zero =>
    refine ⟨s.trace, ?_⟩
    rw [Function.iterate_zero_apply, ← hv]
  | succ k ih =>
    obtain ⟨T, hT⟩ := ih (by omega)
    obtain ⟨T1, hT1⟩ : ∃ T1, CShowableAnim.showAll D anim { s with value := k, trace := T }
        = { s with value := k, trace := T1 } := ⟨_, showAll_eq D anim _⟩
    have hne : ¬ ((k + 1) % ui32Mod = s.frameDelay) := by
      rw [Nat.mod_eq_of_lt (by omega)]
      omega
    refine ⟨T1, ?_⟩
    rw [Function.iterate_succ_apply', hT, show_eq]
    dsimp only
    rw [if_neg hP, if_neg hne, hT1, Nat.mod_eq_of_lt (by omega)]

/-- C3 (tick law): in a state with no completion callback, `value == 0`,
`frameDelay == d >= 1` and not (PLAY_ONCE set and `frame + 1 == last`), each
of the first `d - 1` calls to `show` leaves `frame` unchanged, and after
exactly `d` calls `value == 0` and `frame` is the incremented index, or
`first` (through `reset`) when the incremented index reaches `last`.  The
increment is the `size_t` one; below the `size_t` bound it is `frame + 1`. -/
theorem show_tick_law (D : Decls) (anim : CAnimation) (s : CShowableAnim)
    (hv : s.value = 0) (hd1 : 1 ≤ s.frameDelay) (hd2 : s.frameDelay < ui32Mod)
    (hP : ¬ (s.flags &&& D.PLAY_ONCE ≠ 0 ∧ (s.frame + 1) % sizeMod = s.last)) :
    (∀ k, k < s.frameDelay →
      ((CShowableAnim.show D anim (CShowableAnim.reset none))^[k] s).frame = s.frame) ∧
    ((CShowableAnim.show D anim (CShowableAnim.reset none))^[s.frameDelay] s).value = 0 ∧
    ((CShowableAnim.show D anim (CShowableAnim.reset none))^[s.frameDelay] s).frame
      = (if s.last ≤ (s.frame + 1) % sizeMod then s.first else (s.frame + 1) % sizeMod) ∧
    (s.frame + 1 < sizeMod →
      ((CShowableAnim.show D anim (CShowableAnim.reset none))^[s.frameDelay] s).frame
        = (if s.last ≤ s.frame + 1 then s.first else s.frame + 1)) := by
  have hlast : ((CShowableAnim.show D anim (CShowableAnim.reset none))^[s.frameDelay] s).value = 0 ∧
      ((CShowableAnim.show D anim (CShowableAnim.reset none))^[s.frameDelay] s).frame
        = (if s.last ≤ (s.frame + 1) % sizeMod then s.first else (s.frame + 1) % sizeMod) := by
    obtain ⟨k, hk⟩ : ∃ k, s.frameDelay = k + 1 := ⟨s.frameDelay - 1, by omega⟩
    obtain ⟨T, hT⟩ := show_iterate_below D anim s hv hd2 hP k (by omega)
    obtain ⟨T1, hT1⟩ : ∃ T1, CShowableAnim.showAll D anim { s with value := k, trace := T }
        = { s with value := k, trace := T1 } := ⟨_, showAll_eq D anim _⟩
    have heq : (k + 1) % ui32Mod = s.frameDelay := by
      rw [Nat.mod_eq_of_lt (by omega)]
      omega
    rw [hk, Function.iterate_succ_apply', hT, show_eq]
    dsimp only
    rw [if_neg hP, if_pos heq, hT1]
    by_cases hw : s.last ≤ (s.frame + 1) % sizeMod
    · rw [if_pos hw, if_pos hw]
      exact ⟨rfl, rfl⟩
    · rw [if_neg hw, if_neg hw]
      exact ⟨rfl, rfl⟩
  refine ⟨?_, hlast.1, hlast.2, ?_⟩
  · intro k hk
    obtain ⟨T, hT⟩ := show_iterate_below D anim s hv hd2 hP k hk
    rw [hT]
  · intro hlt
    rw [hlast.2, Nat.mod_eq_of_lt hlt]

/-- C4 (play-once law): with PLAY_ONCE set and `frame + 1 == last`, any number
of successive calls to `show` does exactly what the same number of `showAll`
calls does, whatever the virtual `reset` is: only draw events are appended to
the trace, every member (`frame`, `value`, `group`, `first`, `last`, ...)
keeps its value, and neither `reset` nor the callback runs. -/
theorem show_playOnce_holds (D : Decls) (anim : CAnimation)
    (r : CShowableAnim → CShowableAnim) (s : CShowableAnim) (n : Nat)
    (hP : s.flags &&& D.PLAY_ONCE ≠ 0) (hF : (s.frame + 1) % sizeMod = s.last) :
    (CShowableAnim.show D anim r)^[n] s = (CShowableAnim.showAll D anim)^[n] s ∧
    ∃ evs, (CShowableAnim.show D anim r)^[n] s = { s with trace := s.trace ++ evs } ∧
      Event.callback ∉ evs := by
  have key : (CShowableAnim.show D anim r)^[n] s = (CShowableAnim.showAll D anim)^[n] s := by
    induction n with
    | zero => rfl
    | succ n ih =>
      obtain ⟨evs, h, _⟩ := showAll_iterate D anim s n
      rw [Function.iterate_succ_apply', Function.iterate_succ_apply', ih, h, show_eq]
      dsimp only
      rw [if_pos ⟨hP, hF⟩]
  refine ⟨key, ?_⟩
  rw [key]
  exact showAll_iterate D anim s n

/-- Instance of the tick law with delay 4 on a three-frame group. -/
theorem show_tick_law_witness :
    (exampleState.value = 0 ∧ 1 ≤ exampleState.frameDelay ∧
      exampleState.frameDelay < ui32Mod ∧
      ¬ (exampleState.flags &&& exampleDecls.PLAY_ONCE ≠ 0 ∧
          (exampleState.frame + 1) % sizeMod = exampleState.last)) ∧
    ((CShowableAnim.show exampleDecls exampleAnim (CShowableAnim.reset none))^[3]
        exampleState).frame = 0 ∧
    ((CShowableAnim.show exampleDecls exampleAnim (CShowableAnim.reset none))^[4]
        exampleState).value = 0 ∧
    ((CShowableAnim.show exampleDecls exampleAnim (CShowableAnim.reset none))^[4]
        exampleState).frame = 1 :=
  ⟨by decide,
   (show_tick_law exampleDecls exampleAnim exampleState (by decide) (by decide) (by decide)
      (by decide)).1 3 (by decide),
   (show_tick_law exampleDecls exampleAnim exampleState (by decide) (by decide) (by decide)
      (by decide)).2.1,
   ((show_tick_law exampleDecls exampleAnim exampleState (by decide) (by decide) (by decide)
      (by decide)).2.2.1).trans (by decide)⟩

/-- Instance of the play-once law on the last frame of a three-frame group. -/
theorem show_playOnce_holds_witness :
    (examplePlayOnceState.flags &&& exampleDecls.PLAY_ONCE ≠ 0 ∧
      (examplePlayOnceState.frame + 1) % sizeMod = examplePlayOnceState.last) ∧
    (CShowableAnim.show exampleDecls exampleAnim (CShowableAnim.reset none))^[5]
        examplePlayOnceState
      = (CShowableAnim.showAll exampleDecls exampleAnim)^[5] examplePlayOnceState :=
  ⟨by decide,
   (show_playOnce_holds exampleDecls exampleAnim (CShowableAnim.reset none)
      examplePlayOnceState 5 (by decide) (by decide)).1⟩

/-! ## CCreatureAnim::reset -/

/-- The one-argument `set` on an empty group: false, only the size query is
recorded. -/
theorem set_Group_of_empty (anim : CAnimation) (s : CShowableAnim) (Group : Nat)
    (h : anim.size Group = 0) :
    CShowableAnim.set_Group anim s Group
      = (false, { s with trace := s.trace ++ [Event.size Group] }) := by
  simp only [CShowableAnim.set_Group, h, if_true]

/-- The one-argument `set` on a non-empty group: true, the group is active at
frame 0 with `value == 0`, the queue is untouched and only frame store calls
are recorded. -/
theorem set_Group_of_nonempty (anim : CAnimation) (s : CShowableAnim) (Group : Nat)
    (h : anim.size Group ≠ 0) :
    (CShowableAnim.set_Group anim s Group).1 = true ∧
    (CShowableAnim.set_Group anim s Group).2.group = Group ∧
    (CShowableAnim.set_Group anim s Group).2.frame = 0 ∧
    (CShowableAnim.set_Group anim s Group).2.value = 0 ∧
    (CShowableAnim.set_Group anim s Group).2.queue = s.queue ∧
    ∃ evs, (CShowableAnim.set_Group anim s Group).2.trace = s.trace ++ evs ∧
      Event.callback ∉ evs := by
  by_cases hg : s.group = Group
  · simp only [CShowableAnim.set_Group, h, if_false, hg, ne_eq, not_true_eq_false]
    exact ⟨trivial, trivial, trivial, trivial, trivial, [Event.size Group], rfl, by simp⟩
  · simp only [CShowableAnim.set_Group, h, if_false, hg, ne_eq, not_false_eq_true, if_true]
    exact ⟨trivial, trivial, trivial, trivial, trivial,
      [Event.size Group, Event.loadGroup Group, Event.unloadGroup s.group, Event.size Group],
      by simp, by simp⟩

/-- The pop loop skips the entries whose groups are empty (recording one size
query each) and leaves through `return` at the first entry with frames. -/
theorem popUntilSet_skips (anim : CAnimation) (a : Nat) (rest : List Nat)
    (ha : anim.size a ≠ 0) :
    ∀ (pre : List Nat) (s : CShowableAnim) (fuel : Nat),
      s.queue = pre ++ a :: rest → (∀ g ∈ pre, anim.size g = 0) → pre.length < fuel →
      CCreatureAnim.popUntilSet anim fuel s
        = (true, (CShowableAnim.set_Group anim
            { s with queue := rest, trace := s.trace ++ pre.map Event.size } a).2) := by
  intro pre
  induction pre with
  | nil =>
    intro s fuel hq _ hf
    obtain ⟨f, rfl⟩ : ∃ f, fuel = f + 1 := ⟨fuel - 1, by simp at hf; omega⟩
    simp only [List.nil_append] at hq
    have h1 := (set_Group_of_nonempty anim { s with queue := rest } a ha).1
    simp only [CCreatureAnim.popUntilSet, hq, h1, if_true, List.map_nil, List.append_nil]
  | cons g pre ih =>
    intro s fuel hq hpre hf
    obtain ⟨f, rfl⟩ : ∃ f, fuel = f + 1 := ⟨fuel - 1, by simp at hf; omega⟩
    have hg : anim.size g = 0 := hpre g (by simp)
    simp only [List.cons_append] at hq
    simp only [CCreatureAnim.popUntilSet, hq, set_Group_of_empty anim _ g hg]
    rw [ih _ f rfl (fun x hx => hpre x (by simp [hx])) (by simp at hf; omega)]
    simp

/-- The flip switch changes nothing but `flags`. -/
theorem rotate_eq (D : Decls) (s : CShowableAnim) (On vertical : Bool) :
    s.rotate D On vertical = { s with flags := (s.rotate D On vertical).flags } := by
  unfold CShowableAnim.rotate
  split_ifs <;> rfl

/-- The first half of `CCreatureAnim::reset`: after the flip update, which only
touches `flags`, the pop loop runs, and if it leaves through `return` its
state is the result; the callback is only reached otherwise. -/
theorem reset_first_loop (D : Decls) (anim : CAnimation) (s : CShowableAnim) :
    ∃ F, ∀ callback : Option (CShowableAnim → CShowableAnim),
      (CCreatureAnim.popUntilSet anim s.queue.length { s with flags := F }).1 = true →
      CCreatureAnim.reset D anim callback s
        = (CCreatureAnim.popUntilSet anim s.queue.length { s with flags := F }).2 := by
  obtain ⟨F, hF⟩ : ∃ F,
      (if (if s.type = D.TURN_L ∧ s.queue ≠ [] ∧ s.queue.head? = some D.TURN_L then
              s.rotate D true D.rotateVerticalDefault else s).type = D.TURN_R ∧
          (if s.type = D.TURN_L ∧ s.queue ≠ [] ∧ s.queue.head? = some D.TURN_L then
              s.rotate D true D.rotateVerticalDefault else s).queue ≠ [] ∧
          (if s.type = D.TURN_L ∧ s.queue ≠ [] ∧ s.queue.head? = some D.TURN_L then
              s.rotate D true D.rotateVerticalDefault else s).queue.head? = some D.TURN_R then
        (if s.type = D.TURN_L ∧ s.queue ≠ [] ∧ s.queue.head? = some D.TURN_L then
              s.rotate D true D.rotateVerticalDefault else s).rotate D false D.rotateVerticalDefault
      else
        (if s.type = D.TURN_L ∧ s.queue ≠ [] ∧ s.queue.head? = some D.TURN_L then
              s.rotate D true D.rotateVerticalDefault else s)) = { s with flags := F } := by
    split_ifs
    · exact ⟨_, by rw [rotate_eq, rotate_eq D s]⟩
    · exact ⟨_, rotate_eq D s _ _⟩
    · exact ⟨_, rotate_eq D s _ _⟩
    · exact ⟨s.flags, rfl⟩
  refine ⟨F, ?_⟩
  intro callback h
  unfold CCreatureAnim.reset
  dsimp only
  rw [hF]
  dsimp only
  rw [if_pos h]

/-- When the queue is `pre ++ a :: rest`, every group of `pre` is empty and `a`
has frames, `CCreatureAnim::reset()` ends on `a` at frame 0 with `rest` left in
the queue, whatever the callback is. -/
theorem reset_at_split (D : Decls) (anim : CAnimation)
    (callback : Option (CShowableAnim → CShowableAnim)) (s : CShowableAnim)
    (pre : List Nat) (a : Nat) (rest : List Nat)
    (hq : s.queue = pre ++ a :: rest)
    (hpre : ∀ g ∈ pre, anim.size g = 0)
    (ha : 0 < anim.size a) :
    (CCreatureAnim.reset D anim callback s).group = a ∧
    (CCreatureAnim.reset D anim callback s).frame = 0 ∧
    (CCreatureAnim.reset D anim callback s).value = 0 ∧
    (CCreatureAnim.reset D anim callback s).queue = rest ∧
    CCreatureAnim.reset D anim callback s = CCreatureAnim.reset D anim none s ∧
    ∃ evs, (CCreatureAnim.reset D anim callback s).trace = s.trace ++ evs ∧
      Event.callback ∉ evs := by
  have hne : anim.size a ≠ 0 := by omega
  obtain ⟨F, hF⟩ := reset_first_loop D anim s
  have hlen : pre.length < s.queue.length := by
    rw [hq, List.length_append, List.length_cons]
    omega
  have hp := popUntilSet_skips anim a rest hne pre { s with flags := F } s.queue.length
    hq hpre hlen
  have h1 : (CCreatureAnim.popUntilSet anim s.queue.length { s with flags := F }).1 = true := by
    rw [hp]
  have hcb := hF callback h1
  have hnone := hF none h1
  obtain ⟨_, hgroup, hframe, hvalue, hqueue, evs, htrace, hev⟩ :=
    set_Group_of_nonempty anim
      { s with flags := F, queue := rest, trace := s.trace ++ pre.map Event.size } a hne
  rw [hnone, hcb, hp]
  refine ⟨hgroup, hframe, hvalue, hqueue, rfl, pre.map Event.size ++ evs, ?_, ?_⟩
  · rw [htrace, List.append_assoc]
  · intro hmem
    rcases List.mem_append.mp hmem with h | h
    · obtain ⟨x, _, hx⟩ := List.mem_map.mp h
      cases hx
    · exact hev h

/-- A queue with a playable entry splits at the first one: the entries before
it all name empty groups. -/
theorem exists_first_playable (anim : CAnimation) :
    ∀ q : List Nat, (∃ g ∈ q, 0 < anim.size g) →
      ∃ pre a rest, q = pre ++ a :: rest ∧ (∀ g ∈ pre, anim.size g = 0) ∧ 0 < anim.size a := by
  intro q
  induction q with
  | nil =>
    rintro ⟨g, hg, _⟩
    cases hg
  | cons x q ih =>
    rintro ⟨g, hg, hpos⟩
    by_cases hx : 0 < anim.size x
    · refine ⟨[], x, q, rfl, ?_, hx⟩
      intro y hy
      cases hy
    · have hgq : g ∈ q := by
        rcases List.mem_cons.mp hg with h | h
        · subst h
          exact absurd hpos hx
        · exact h
      obtain ⟨pre, a, rest, hq, hpre, ha⟩ := ih ⟨g, hgq, hpos⟩
      refine ⟨x :: pre, a, rest, by rw [hq, List.cons_append], ?_, ha⟩
      intro y hy
      rcases List.mem_cons.mp hy with h | h
      · subst h
        omega
      · exact hpre y h

/-- C6: when the queue contains at least one entry whose group has at least
one frame, the queue is `pre ++ a :: rest` with `a` the first such entry (every
group of `pre` is empty), and after `CCreatureAnim::reset()` the active group
is `a`, `frame == 0`, `value == 0`, the queue is exactly `rest`, and the
completion callback has not been invoked: the result is the same as with no
callback registered, and no callback event is recorded. -/
theorem reset_takes_first_playable (D : Decls) (anim : CAnimation)
    (callback : Option (CShowableAnim → CShowableAnim)) (s : CShowableAnim)
    (h : ∃ g ∈ s.queue, 0 < anim.size g) :
    ∃ pre a rest, s.queue = pre ++ a :: rest ∧ (∀ g ∈ pre, anim.size g = 0) ∧
      0 < anim.size a ∧
      (CCreatureAnim.reset D anim callback s).group = a ∧
      (CCreatureAnim.reset D anim callback s).frame = 0 ∧
      (CCreatureAnim.reset D anim callback s).value = 0 ∧
      (CCreatureAnim.reset D anim callback s).queue = rest ∧
      CCreatureAnim.reset D anim callback s = CCreatureAnim.reset D anim none s ∧
      ∃ evs, (CCreatureAnim.reset D anim callback s).trace = s.trace ++ evs ∧
        Event.callback ∉ evs := by
  obtain ⟨pre, a, rest, hq, hpre, ha⟩ := exists_first_playable anim s.queue h
  exact ⟨pre, a, rest, hq, hpre, ha,
    reset_at_split D anim callback s pre a rest hq hpre ha⟩

/-- Instance of the pop loop, with a callback that would move the frame if it
ran: the empty group 5 is skipped, group 1 is taken. -/
theorem reset_takes_first_playable_witness :
    (∃ g ∈ exampleQueuedState.queue, 0 < exampleAnim.size g) ∧
    ∃ pre a rest, exampleQueuedState.queue = pre ++ a :: rest ∧
      (∀ g ∈ pre, exampleAnim.size g = 0) ∧ 0 < exampleAnim.size a ∧
      (CCreatureAnim.reset exampleDecls exampleAnim
        (some (fun t => { t with frame := 7 })) exampleQueuedState).group = a ∧
      (CCreatureAnim.reset exampleDecls exampleAnim
        (some (fun t => { t with frame := 7 })) exampleQueuedState).frame = 0 ∧
      (CCreatureAnim.reset exampleDecls exampleAnim
        (some (fun t => { t with frame := 7 })) exampleQueuedState).value = 0 ∧
      (CCreatureAnim.reset exampleDecls exampleAnim
        (some (fun t => { t with frame := 7 })) exampleQueuedState).queue = rest ∧
      CCreatureAnim.reset exampleDecls exampleAnim
          (some (fun t => { t with frame := 7 })) exampleQueuedState
        = CCreatureAnim.reset exampleDecls exampleAnim none exampleQueuedState ∧
      ∃ evs, (CCreatureAnim.reset exampleDecls exampleAnim
          (some (fun t => { t with frame := 7 })) exampleQueuedState).trace
          = exampleQueuedState.trace ++ evs ∧ Event.callback ∉ evs :=
  ⟨⟨1, by decide, by decide⟩,
   reset_takes_first_playable exampleDecls exampleAnim
     (some (fun t => { t with frame := 7 })) exampleQueuedState ⟨1, by decide, by decide⟩⟩

/-! ## Lifetime of a CAnimImage -/

/-- C8 fails on the code: with the BASE flag, an image view constructed on
frame 1 of group 0, moved to frame 1 of group 1 and then destroyed produces
the trace below.  The base frame `(0, 0)` is loaded once and never unloaded,
and `(0, 1)` is unloaded once without ever having been loaded. -/
theorem lifetime_base_group_change_unbalanced :
    CAnimImage.lifetime exampleDecls exampleAnim { x := 0, y := 0, w := 0, h := 0 }
        1 0 0 0 exampleDecls.BASE [(1, 1)]
      = [Event.load [1, 0], Event.load [0, 0], Event.getImage 1 0,
         Event.size 1, Event.load [1, 1], Event.unload [1, 0], Event.getImage 1 1,
         Event.unload [1, 1], Event.unload [0, 1]] ∧
    (CAnimImage.lifetime exampleDecls exampleAnim { x := 0, y := 0, w := 0, h := 0 }
        1 0 0 0 exampleDecls.BASE [(1, 1)]).count (Event.load [0, 0]) = 1 ∧
    (CAnimImage.lifetime exampleDecls exampleAnim { x := 0, y := 0, w := 0, h := 0 }
        1 0 0 0 exampleDecls.BASE [(1, 1)]).count (Event.unload [0, 0]) = 0 ∧
    (CAnimImage.lifetime exampleDecls exampleAnim { x := 0, y := 0, w := 0, h := 0 }
        1 0 0 0 exampleDecls.BASE [(1, 1)]).count (Event.load [0, 1]) = 0 ∧
    (CAnimImage.lifetime exampleDecls exampleAnim { x := 0, y := 0, w := 0, h := 0 }
        1 0 0 0 exampleDecls.BASE [(1, 1)]).count (Event.unload [0, 1]) = 1 := by
  decide

/-- What `init` leaves behind: the members are kept and the trace gains the
load of the current frame, the load of the base frame when BASE is set, and
the image query. -/
theorem init_members (D : Decls) (anim : CAnimation) (s : CAnimImage) :
    (CAnimImage.init D anim s).frame = s.frame ∧ (CAnimImage.init D anim s).group = s.group ∧
    (CAnimImage.init D anim s).flags = s.flags ∧
    (CAnimImage.init D anim s).trace = s.trace ++ Event.load [s.frame, s.group] ::
      ((if s.flags &&& D.BASE ≠ 0 then [Event.load [0, s.group]] else []) ++
        [Event.getImage s.frame s.group]) := by
  by_cases hB : s.flags &&& D.BASE ≠ 0
  · simp only [CAnimImage.init, if_pos hB]
    split <;> simp
  · simp only [CAnimImage.init, if_neg hB]
    split <;> simp

/-- A freshly constructed view accounts for its loads, is on the requested
group and carries the requested flags. -/
theorem create_accounted (D : Decls) (anim : CAnimation) (pos0 : Rect)
    (Frame Group : Nat) (x y : Int) (Flags : Nat) :
    (CAnimImage.create D anim pos0 Frame Group x y Flags).accounted D ∧
    (CAnimImage.create D anim pos0 Frame Group x y Flags).group = Group ∧
    (CAnimImage.create D anim pos0 Frame Group x y Flags).flags = Flags := by
  obtain ⟨hf, hg, hfl, ht⟩ := init_members D anim
    { frame := Frame, group := Group, player := -1, flags := Flags,
      pos := { pos0 with x := pos0.x + x, y := pos0.y + y }, trace := [] }
  refine ⟨?_, hg, hfl⟩
  intro p
  unfold CAnimImage.held CAnimImage.create
  rw [ht, hf, hg, hfl]
  dsimp only
  by_cases hB : Flags &&& D.BASE ≠ 0
  · by_cases h1 : [Frame, Group] = p <;> by_cases h2 : [0, Group] = p <;>
      simp [hB, h1, h2, List.count_cons]
  · by_cases h1 : [Frame, Group] = p <;>
      simp [hB, h1, List.count_cons]

/-- The three ways `setFrame` can go: nothing to do, a swap of the frame
reference, or a logged refusal. -/
theorem setFrame_cases (D : Decls) (anim : CAnimation) (s : CAnimImage) (Frame Group : Nat) :
    CAnimImage.setFrame D anim s Frame Group = s ∨
    ((CAnimImage.setFrame D anim s Frame Group).frame = Frame ∧
      (CAnimImage.setFrame D anim s Frame Group).group = Group ∧
      (CAnimImage.setFrame D anim s Frame Group).flags = s.flags ∧
      ∃ evs, (CAnimImage.setFrame D anim s Frame Group).trace
          = s.trace ++ Event.size Group :: Event.load [Frame, Group] ::
              Event.unload [s.frame, s.group] :: evs ∧
        ∀ p, Event.load p ∉ evs ∧ Event.unload p ∉ evs) ∨
    CAnimImage.setFrame D anim s Frame Group
      = { s with trace := s.trace ++ [Event.size Group, Event.logError Group Frame] } := by
  by_cases hsame : s.frame = Frame ∧ s.group = Group
  · left
    simp only [CAnimImage.setFrame, if_pos hsame]
  · by_cases hsz : anim.size Group > Frame
    · right; left
      simp only [CAnimImage.setFrame, if_neg hsame, if_pos hsz]
      split
      · by_cases hpc : s.flags &&& D.PLAYER_COLORED ≠ 0
        · simp only [if_pos hpc]
          exact ⟨trivial, trivial, trivial,
            [Event.getImage Frame Group, Event.playerColored Frame Group s.player],
            by simp, by simp⟩
        · simp only [if_neg hpc]
          exact ⟨trivial, trivial, trivial, [Event.getImage Frame Group], by simp, by simp⟩
      · exact ⟨rfl, rfl, rfl, [Event.getImage Frame Group], by simp, by simp⟩
    · right; right
      simp only [CAnimImage.setFrame, if_neg hsame, if_neg hsz, List.append_assoc,
        List.singleton_append]

/-- A `setFrame` call keeps the accounting when BASE is not set or the group
stays the same. -/
theorem setFrame_accounted (D : Decls) (anim : CAnimation) (s : CAnimImage)
    (Frame Group : Nat) (hacc : s.accounted D)
    (hok : s.flags &&& D.BASE = 0 ∨ Group = s.group) :
    (CAnimImage.setFrame D anim s Frame Group).accounted D := by
  rcases setFrame_cases D anim s Frame Group with h | ⟨hf, hg, hfl, evs, ht, hev⟩ | h
  · rw [h]; exact hacc
  · intro p
    have h1 : evs.count (Event.load p) = 0 := List.count_eq_zero_of_not_mem (hev p).1
    have h2 : evs.count (Event.unload p) = 0 := List.count_eq_zero_of_not_mem (hev p).2
    have h0 := hacc p
    unfold CAnimImage.held at h0 ⊢
    rw [ht, hf, hg, hfl]
    simp only [List.count_append, List.count_cons, h1, h2, beq_iff_eq, Event.load.injEq,
      Event.unload.injEq, reduceCtorEq, if_false]
    rcases hok with hB | hG
    · have hB1 : ¬ (s.flags &&& D.BASE ≠ 0 ∧ [0, s.group] = p) := fun c => c.1 hB
      have hB2 : ¬ (s.flags &&& D.BASE ≠ 0 ∧ [0, Group] = p) := fun c => c.1 hB
      rw [if_neg hB1] at h0
      rw [if_neg hB2]
      omega
    · rw [hG]
      omega
  · rw [h]
    intro p
    have h0 := hacc p
    unfold CAnimImage.held at h0 ⊢
    simp only [List.count_append, List.count_cons, List.count_nil, beq_iff_eq, reduceCtorEq,
      if_false]
    omega

/-- A `setFrame` call never changes `flags`, and keeps `group` when asked for
the current group. -/
theorem setFrame_flags_group (D : Decls) (anim : CAnimation) (s : CAnimImage)
    (Frame Group : Nat) :
    (CAnimImage.setFrame D anim s Frame Group).flags = s.flags ∧
    (Group = s.group → (CAnimImage.setFrame D anim s Frame Group).group = s.group) := by
  rcases setFrame_cases D anim s Frame Group with h | ⟨_, hg, hfl, _⟩ | h
  · rw [h]; exact ⟨rfl, fun _ => rfl⟩
  · exact ⟨hfl, fun hG => by rw [hg, hG]⟩
  · rw [h]; exact ⟨rfl, fun _ => rfl⟩

/-- A sequence of `setFrame` calls keeps the accounting when BASE is not set
or every call stays on the current group. -/
theorem foldl_setFrame_accounted (D : Decls) (anim : CAnimation) :
    ∀ (calls : List (Nat × Nat)) (s : CAnimImage), s.accounted D →
      (s.flags &&& D.BASE = 0 ∨ ∀ c ∈ calls, c.2 = s.group) →
      (calls.foldl (fun s c => CAnimImage.setFrame D anim s c.1 c.2) s).accounted D := by
  intro calls
  induction calls with
  | nil => intro s h _; exact h
  | cons c calls ih =>
    intro s hacc hok
    rw [List.foldl_cons]
    have hfg := setFrame_flags_group D anim s c.1 c.2
    apply ih
    · apply setFrame_accounted D anim s c.1 c.2 hacc
      rcases hok with h | h
      · exact Or.inl h
      · exact Or.inr (h c (by simp))
    · rcases hok with h | h
      · left; rw [hfg.1]; exact h
      · right
        intro c1 hc1
        rw [hfg.2 (h c (by simp))]
        exact h c1 (by simp [hc1])

/-- Balance of the reference counting: when the BASE flag is not set, or when
no `setFrame` call names a group other than the one the view was constructed
on, every pair is loaded exactly as often as it is unloaded over the life of
the view. -/
theorem lifetime_balanced (D : Decls) (anim : CAnimation) (pos0 : Rect)
    (Frame Group : Nat) (x y : Int) (Flags : Nat) (calls : List (Nat × Nat))
    (hok : Flags &&& D.BASE = 0 ∨ ∀ c ∈ calls, c.2 = Group) (p : List Nat) :
    (CAnimImage.lifetime D anim pos0 Frame Group x y Flags calls).count (Event.load p)
      = (CAnimImage.lifetime D anim pos0 Frame Group x y Flags calls).count (Event.unload p) := by
  obtain ⟨hacc, hg, hfl⟩ := create_accounted D anim pos0 Frame Group x y Flags
  have hfold := foldl_setFrame_accounted D anim calls
    (CAnimImage.create D anim pos0 Frame Group x y Flags) hacc
    (by rw [hfl, hg]; exact hok)
  have h0 := hfold p
  unfold CAnimImage.held at h0
  unfold CAnimImage.lifetime CAnimImage.destroy
  generalize calls.foldl (fun s c => CAnimImage.setFrame D anim s c.1 c.2)
      (CAnimImage.create D anim pos0 Frame Group x y Flags) = t at h0 ⊢
  dsimp only
  by_cases hB : t.flags &&& D.BASE ≠ 0
  · rw [if_pos hB]
    by_cases h2 : [0, t.group] = p
    · have e2 : (if t.flags &&& D.BASE ≠ 0 ∧ [0, t.group] = p then 1 else 0) = 1 :=
        if_pos ⟨hB, h2⟩
      rw [e2] at h0
      simp only [List.count_append, List.count_cons, List.count_nil, beq_iff_eq,
        Event.unload.injEq, reduceCtorEq, if_false, if_pos h2]
      omega
    · have e2 : (if t.flags &&& D.BASE ≠ 0 ∧ [0, t.group] = p then 1 else 0) = 0 :=
        if_neg (fun c => h2 c.2)
      rw [e2] at h0
      simp only [List.count_append, List.count_cons, List.count_nil, beq_iff_eq,
        Event.unload.injEq, reduceCtorEq, if_false, if_neg h2]
      omega
  · have e2 : (if t.flags &&& D.BASE ≠ 0 ∧ [0, t.group] = p then 1 else 0) = 0 :=
      if_neg (fun c => hB c.1)
    rw [e2] at h0
    rw [if_neg hB]
    simp only [List.count_append, List.count_cons, List.count_nil, beq_iff_eq,
      Event.unload.injEq, reduceCtorEq, if_false]
    omega

/-! ## The one-argument set and idempotence of setFrame -/

/-- C11: `set(Group)` returns false exactly when `size(Group) == 0`, and then
no member changes and the only frame store call is the size query.  Otherwise
it returns true with `group == Group`, `frame == 0` and `value == 0`; when
`Group` is already the current group the only call is the size query, and
when `Group` differs from the previous group, `first == 0`,
`last == size(Group)` and the calls are one `loadGroup(Group)`, one
`unloadGroup(previous group)` and the size queries. -/
theorem set_Group_contract (anim : CAnimation) (s : CShowableAnim) (Group : Nat) :
    ((CShowableAnim.set_Group anim s Group).1 = false ↔ anim.size Group = 0) ∧
    (anim.size Group = 0 →
      CShowableAnim.set_Group anim s Group
        = (false, { s with trace := s.trace ++ [Event.size Group] })) ∧
    (anim.size Group ≠ 0 →
      (CShowableAnim.set_Group anim s Group).1 = true ∧
      (CShowableAnim.set_Group anim s Group).2.group = Group ∧
      (CShowableAnim.set_Group anim s Group).2.frame = 0 ∧
      (CShowableAnim.set_Group anim s Group).2.value = 0 ∧
      (Group = s.group →
        (CShowableAnim.set_Group anim s Group).2
          = { s with frame := 0, value := 0, trace := s.trace ++ [Event.size Group] }) ∧
      (Group ≠ s.group →
        (CShowableAnim.set_Group anim s Group).2.first = 0 ∧
        (CShowableAnim.set_Group anim s Group).2.last = anim.size Group ∧
        (CShowableAnim.set_Group anim s Group).2.trace
          = s.trace ++ [Event.size Group, Event.loadGroup Group,
              Event.unloadGroup s.group, Event.size Group])) := by
  refine ⟨?_, fun h => set_Group_of_empty anim s Group h, ?_⟩
  · constructor
    · intro h
      by_contra hne
      have := (set_Group_of_nonempty anim s Group hne).1
      rw [this] at h
      cases h
    · intro h
      rw [set_Group_of_empty anim s Group h]
  · intro hne
    obtain ⟨h1, h2, h3, h4, _⟩ := set_Group_of_nonempty anim s Group hne
    refine ⟨h1, h2, h3, h4, ?_, ?_⟩
    · intro hg
      have hg2 : ¬ (s.group ≠ Group) := fun c => c hg.symm
      simp only [CShowableAnim.set_Group, if_neg hne, if_neg hg2]
    · intro hg
      have hg2 : s.group ≠ Group := fun c => hg c.symm
      simp only [CShowableAnim.set_Group, if_neg hne, if_pos hg2, List.append_assoc,
        List.singleton_append, List.cons_append, List.nil_append]
      exact ⟨trivial, trivial, trivial⟩

/-- Instance of the contract of `set(Group)`: switching from group 0 to the
three-frame group 1. -/
theorem set_Group_contract_witness :
    exampleAnim.size 1 ≠ 0 ∧ (1 : Nat) ≠ exampleState.group ∧
    (CShowableAnim.set_Group exampleAnim exampleState 1).1 = true ∧
    (CShowableAnim.set_Group exampleAnim exampleState 1).2.last = exampleAnim.size 1 ∧
    (CShowableAnim.set_Group exampleAnim exampleState 1).2.trace
      = exampleState.trace ++ [Event.size 1, Event.loadGroup 1,
          Event.unloadGroup exampleState.group, Event.size 1] :=
  ⟨by decide, by decide,
   ((set_Group_contract exampleAnim exampleState 1).2.2 (by decide)).1,
   (((set_Group_contract exampleAnim exampleState 1).2.2 (by decide)).2.2.2.2.2
      (by decide)).2.1,
   (((set_Group_contract exampleAnim exampleState 1).2.2 (by decide)).2.2.2.2.2
      (by decide)).2.2⟩

/-- C14: `setFrame` called with the already-current `(frame, group)` pair
returns the view as it is: no member changes, and the trace gains nothing, so
there is no `size`, `load`, `unload` or `getImage` call and no log line. -/
theorem setFrame_current (D : Decls) (anim : CAnimation) (s : CAnimImage) :
    CAnimImage.setFrame D anim s s.frame s.group = s := by
  unfold CAnimImage.setFrame
  rw [if_pos ⟨rfl, rfl⟩]

/-! ## Frame store calls of the three-argument set -/

/-- The calls a successful `set(Group, from, to)` makes on the frame store, in
order: the size query, `load(Group)` and `unload(group)` with the previous
group. -/
theorem set_Group_from_to_trace (anim : CAnimation) (s : CShowableAnim) (Group From To : Nat)
    (h : (CShowableAnim.set_Group_from_to anim s Group From To).1 = true) :
    (CShowableAnim.set_Group_from_to anim s Group From To).2.trace
      = s.trace ++ [Event.size Group, Event.load [Group], Event.unload [s.group]] := by
  unfold CShowableAnim.set_Group_from_to at h ⊢
  by_cases hc : (if To < anim.size Group then To else anim.size Group) < From ∨
      (if To < anim.size Group then To else anim.size Group) = 0
  · simp [hc] at h
  · simp only [hc, if_false, List.append_assoc, List.singleton_append, List.cons_append,
      List.nil_append]

/-- C15 fails on the code: the successful `set(1, 1, 7)` from group 0 records
`load(1)` and `unload(0)`, the single-frame calls with one argument, and no
`loadGroup` or `unloadGroup`, whereas `set(1)` records `loadGroup(1)` and
`unloadGroup(0)`.  Destroying the object afterwards records `unloadGroup(1)`
for a group that no `loadGroup` call named. -/
theorem set_Group_from_to_calls_load_not_loadGroup :
    (CShowableAnim.set_Group_from_to exampleAnim exampleState 1 1 7).1 = true ∧
    (CShowableAnim.set_Group_from_to exampleAnim exampleState 1 1 7).2.trace
      = [Event.size 1, Event.load [1], Event.unload [0]] ∧
    Event.loadGroup 1 ∉ (CShowableAnim.set_Group_from_to exampleAnim exampleState 1 1 7).2.trace ∧
    Event.unloadGroup 0 ∉
      (CShowableAnim.set_Group_from_to exampleAnim exampleState 1 1 7).2.trace ∧
    (CShowableAnim.set_Group exampleAnim exampleState 1).2.trace
      = [Event.size 1, Event.loadGroup 1, Event.unloadGroup 0, Event.size 1] ∧
    CShowableAnim.destroy (CShowableAnim.set_Group_from_to exampleAnim exampleState 1 1 7).2
      = [Event.size 1, Event.load [1], Event.unload [0], Event.unloadGroup 1] := by
  decide

/-! ## Turn entries of addLast -/

/-- C16, as stated, fails: `addLast(TURN_L)` on an empty queue while holding
leaves two entries of TURN_L in the queue, not three. -/
theorem addLast_turn_two_entries :
    (7 : Nat) = exampleDecls.TURN_L ∧
    (CCreatureAnim.addLast exampleDecls exampleState 7).queue = [7, 7] ∧
    (CCreatureAnim.addLast exampleDecls exampleState 7).queue ≠ [7, 7, 7] := by
  decide

/-- C16 (amended): for `newType` in {TURN_L, TURN_R} (which are not MOVING),
`addLast(newType)` enqueues `newType` once before the terminal enqueue, so the
tail of the queue gains exactly two entries of `newType`, after one MOVE_END
marker when the current type is MOVING and after nothing otherwise; no other
member changes. -/
theorem addLast_turn (D : Decls) (s : CShowableAnim) (newType : Nat)
    (hturn : newType = D.TURN_L ∨ newType = D.TURN_R) (hne : newType ≠ D.MOVING) :
    CCreatureAnim.addLast D s newType
      = { s with queue := s.queue ++ (if s.type = D.MOVING then [D.MOVE_END] else []) ++
            [newType, newType] } := by
  have h1 : ¬ (s.type ≠ D.MOVING ∧ newType = D.MOVING) := fun c => hne c.2
  by_cases ht : s.type = D.MOVING
  · simp only [CCreatureAnim.addLast, if_neg h1, if_pos (And.intro ht hne), if_pos hturn,
      if_pos ht, List.append_assoc, List.singleton_append, List.cons_append, List.nil_append]
  · have h2 : ¬ (s.type = D.MOVING ∧ newType ≠ D.MOVING) := fun c => ht c.1
    simp only [CCreatureAnim.addLast, if_neg h1, if_neg h2, if_pos hturn, if_neg ht,
      List.append_assoc, List.singleton_append, List.cons_append, List.nil_append,
      List.append_nil]

/-- Instance of the turn law: `addLast(TURN_R)` while the current type is
MOVING. -/
theorem addLast_turn_witness :
    (((8 : Nat) = exampleDecls.TURN_L ∨ (8 : Nat) = exampleDecls.TURN_R) ∧
      (8 : Nat) ≠ exampleDecls.MOVING) ∧
    CCreatureAnim.addLast exampleDecls { exampleState with type := 0 } 8
      = { exampleState with type := 0, queue := [21, 8, 8] } :=
  ⟨by decide,
   (addLast_turn exampleDecls { exampleState with type := 0 } 8 (by decide)
      (by decide)).trans (by decide)⟩

/-! ## Fallback of CCreatureAnim::reset -/

/-- On a queue of empty groups the pop loop pops everything (recording one
size query per entry) and falls through. -/
theorem popUntilSet_all_empty (anim : CAnimation) :
    ∀ (q : List Nat) (s : CShowableAnim) (fuel : Nat),
      s.queue = q → (∀ g ∈ q, anim.size g = 0) → q.length ≤ fuel →
      CCreatureAnim.popUntilSet anim fuel s
        = (false, { s with queue := [], trace := s.trace ++ q.map Event.size }) := by
  intro q
  induction q with
  | nil =>
    intro s fuel hq _ _
    have hs : { s with queue := [], trace := s.trace ++ List.map Event.size [] } = s := by
      cases s
      simp only at hq
      subst hq
      simp only [List.map_nil, List.append_nil]
    rw [hs]
    cases fuel with
    | zero => rfl
    | succ f => simp only [CCreatureAnim.popUntilSet, hq]
  | cons g q ih =>
    intro s fuel hq hall hf
    obtain ⟨f, rfl⟩ : ∃ f, fuel = f + 1 := ⟨fuel - 1, by simp at hf; omega⟩
    have hg : anim.size g = 0 := hall g (by simp)
    simp only [CCreatureAnim.popUntilSet, hq, set_Group_of_empty anim _ g hg]
    rw [ih _ f rfl (fun x hx => hall x (by simp [hx])) (by simp at hf; omega)]
    simp

/-- The whole of `CCreatureAnim::reset` after the flip update, which only
touches `flags`. -/
theorem reset_eq (D : Decls) (anim : CAnimation) (s : CShowableAnim) :
    ∃ F, ∀ callback : Option (CShowableAnim → CShowableAnim),
      CCreatureAnim.reset D anim callback s
        = (let r := CCreatureAnim.popUntilSet anim s.queue.length { s with flags := F }
           if r.1 then r.2
           else
             let s1 := match callback with
               | some cb => cb { r.2 with trace := r.2.trace ++ [Event.callback] }
               | none => r.2
             let r1 := CCreatureAnim.popUntilSet anim s1.queue.length s1
             if r1.1 then r1.2
             else (CShowableAnim.set_Group anim r1.2 D.HOLDING).2) := by
  obtain ⟨F, hF⟩ : ∃ F,
      (if (if s.type = D.TURN_L ∧ s.queue ≠ [] ∧ s.queue.head? = some D.TURN_L then
              s.rotate D true D.rotateVerticalDefault else s).type = D.TURN_R ∧
          (if s.type = D.TURN_L ∧ s.queue ≠ [] ∧ s.queue.head? = some D.TURN_L then
              s.rotate D true D.rotateVerticalDefault else s).queue ≠ [] ∧
          (if s.type = D.TURN_L ∧ s.queue ≠ [] ∧ s.queue.head? = some D.TURN_L then
              s.rotate D true D.rotateVerticalDefault else s).queue.head? = some D.TURN_R then
        (if s.type = D.TURN_L ∧ s.queue ≠ [] ∧ s.queue.head? = some D.TURN_L then
              s.rotate D true D.rotateVerticalDefault else s).rotate D false D.rotateVerticalDefault
      else
        (if s.type = D.TURN_L ∧ s.queue ≠ [] ∧ s.queue.head? = some D.TURN_L then
              s.rotate D true D.rotateVerticalDefault else s)) = { s with flags := F } := by
    split_ifs
    · exact ⟨_, by rw [rotate_eq, rotate_eq D s]⟩
    · exact ⟨_, rotate_eq D s _ _⟩
    · exact ⟨_, rotate_eq D s _ _⟩
    · exact ⟨s.flags, rfl⟩
  refine ⟨F, ?_⟩
  intro callback
  unfold CCreatureAnim.reset
  dsimp only
  rw [hF]

/-- C12, as stated, fails: on a frame store without HOLDING frames, `reset()`
with an empty queue and no callback leaves the controller where it was (group
0, frame 1, value 2) instead of on HOLDING at frame 0. -/
theorem reset_without_holding_frames :
    (∀ g ∈ exampleMidState.queue, exampleAnimNoHolding.size g = 0) ∧
    (CCreatureAnim.reset exampleDecls exampleAnimNoHolding none exampleMidState).group
      ≠ exampleDecls.HOLDING ∧
    (CCreatureAnim.reset exampleDecls exampleAnimNoHolding none exampleMidState).group = 0 ∧
    (CCreatureAnim.reset exampleDecls exampleAnimNoHolding none exampleMidState).frame = 1 ∧
    (CCreatureAnim.reset exampleDecls exampleAnimNoHolding none exampleMidState).value = 2 := by
  decide

/-- C12 (amended): when no callback is registered, the queue is empty or holds
only entries whose groups have no frames, and HOLDING has at least one frame,
then after `CCreatureAnim::reset()` the queue is empty and the active group is
HOLDING with `frame == 0` and `value == 0`. -/
theorem reset_falls_back_to_holding (D : Decls) (anim : CAnimation) (s : CShowableAnim)
    (hq : ∀ g ∈ s.queue, anim.size g = 0) (hH : 0 < anim.size D.HOLDING) :
    (CCreatureAnim.reset D anim none s).queue = [] ∧
    (CCreatureAnim.reset D anim none s).group = D.HOLDING ∧
    (CCreatureAnim.reset D anim none s).frame = 0 ∧
    (CCreatureAnim.reset D anim none s).value = 0 := by
  obtain ⟨F, hF⟩ := reset_eq D anim s
  have hne : anim.size D.HOLDING ≠ 0 := by omega
  have h1 := popUntilSet_all_empty anim s.queue { s with flags := F } s.queue.length rfl hq
    (Nat.le_refl _)
  have h2 := popUntilSet_all_empty anim []
    { s with flags := F, queue := [], trace := s.trace ++ s.queue.map Event.size } 0 rfl
    (fun _ h => by cases h) (Nat.le_refl _)
  rw [hF none]
  dsimp only
  rw [h1]
  dsimp only [List.length_nil]
  rw [h2]
  obtain ⟨_, hg, hfr, hv, hqu, _⟩ := set_Group_of_nonempty anim
    { s with flags := F, queue := [], trace := s.trace ++ s.queue.map Event.size ++
        List.map Event.size [] } D.HOLDING hne
  exact ⟨hqu, hg, hfr, hv⟩

/-- Instance of the fallback: the queue holds only the empty group 5. -/
theorem reset_falls_back_to_holding_witness :
    ((∀ g ∈ ({ exampleState with queue := [5] } : CShowableAnim).queue,
        exampleAnim.size g = 0) ∧ 0 < exampleAnim.size exampleDecls.HOLDING) ∧
    (CCreatureAnim.reset exampleDecls exampleAnim none
      { exampleState with queue := [5] }).queue = [] ∧
    (CCreatureAnim.reset exampleDecls exampleAnim none
      { exampleState with queue := [5] }).group = exampleDecls.HOLDING ∧
    (CCreatureAnim.reset exampleDecls exampleAnim none
      { exampleState with queue := [5] }).frame = 0 ∧
    (CCreatureAnim.reset exampleDecls exampleAnim none
      { exampleState with queue := [5] }).value = 0 :=
  ⟨by decide,
   reset_falls_back_to_holding exampleDecls exampleAnim { exampleState with queue := [5] }
     (by decide) (by decide)⟩

/-! ## The queueing scenario -/

/-- `addLast` neither reads nor writes `group`: the same entries are queued
whatever group is active. -/
theorem addLast_ignores_group (D : Decls) (s : CShowableAnim) (newType g : Nat) :
    CCreatureAnim.addLast D { s with group := g } newType
      = { CCreatureAnim.addLast D s newType with group := g } := by
  unfold CCreatureAnim.addLast
  dsimp only
  split_ifs <;> rfl

/-- C5 fails on the code: `addLast` tests the member `type`, which nothing in
Images.cpp assigns, and not the active group.  On HOLDING with `type` equal to
MOVING, `addLast(MOVING)` queues `[MOVING]` without MOVE_START although a
moving group is enqueued while the current group is not moving.  And when
`type` is HOLDING, the scenario run (`addLast(MOVING)`, then `reset()` until
the queue is drained) ends with MOVING active and `type` still HOLDING, where
`addLast(HOLDING)` queues `[HOLDING]` without MOVE_END although the current
group is moving and the new one is not. -/
theorem addLast_reads_type_not_group :
    (({ scenarioState with type := exampleDecls.MOVING } : CShowableAnim).group
        = exampleDecls.HOLDING ∧
      exampleDecls.HOLDING ≠ exampleDecls.MOVING ∧
      (CCreatureAnim.addLast exampleDecls { scenarioState with type := exampleDecls.MOVING }
        exampleDecls.MOVING).queue = [exampleDecls.MOVING]) ∧
    ((CCreatureAnim.resetUntilDrained exampleDecls (scenarioAnim 2) none 2
        (CCreatureAnim.addLast exampleDecls scenarioState exampleDecls.MOVING)).2.group
        = exampleDecls.MOVING ∧
      (CCreatureAnim.resetUntilDrained exampleDecls (scenarioAnim 2) none 2
        (CCreatureAnim.addLast exampleDecls scenarioState exampleDecls.MOVING)).2.type
        = exampleDecls.HOLDING ∧
      (CCreatureAnim.resetUntilDrained exampleDecls (scenarioAnim 2) none 2
        (CCreatureAnim.addLast exampleDecls scenarioState exampleDecls.MOVING)).2.queue = [] ∧
      (CCreatureAnim.addLast exampleDecls
        (CCreatureAnim.resetUntilDrained exampleDecls (scenarioAnim 2) none 2
          (CCreatureAnim.addLast exampleDecls scenarioState exampleDecls.MOVING)).2
        exampleDecls.HOLDING).queue = [exampleDecls.HOLDING]) := by
  decide

/-- `addLast` does not look at the trace. -/
theorem addLast_with_trace (D : Decls) (s : CShowableAnim) (newType : Nat) (T : List Event) :
    CCreatureAnim.addLast D { s with trace := T } newType
      = { CCreatureAnim.addLast D s newType with trace := T } := by
  unfold CCreatureAnim.addLast
  dsimp only
  split_ifs <;> rfl

/-- Repeated `addLast` does not look at the trace. -/
theorem addLast_iterate_with_trace (D : Decls) (newType : Nat) (T : List Event) (n : Nat) :
    ∀ s : CShowableAnim,
      (fun t => CCreatureAnim.addLast D t newType)^[n] { s with trace := T }
        = { (fun t => CCreatureAnim.addLast D t newType)^[n] s with trace := T } := by
  induction n with
  | zero => intro s; rfl
  | succ n ih =>
    intro s
    rw [Function.iterate_succ_apply, Function.iterate_succ_apply, addLast_with_trace, ih]

/-- The idle loop with `n` rounds is `n` calls of `addLast(type)`, with `n + 1`
size queries on the trace. -/
theorem idleLoop_eq (D : Decls) (type : Nat) (n : Nat) :
    ∀ s : CShowableAnim,
      CCreatureAnim.idleLoop D type n s
        = { (fun t => CCreatureAnim.addLast D t type)^[n] s with
            trace := s.trace ++ List.replicate (n + 1) (Event.size type) } := by
  induction n with
  | zero => intro s; rfl
  | succ n ih =>
    intro s
    rw [CCreatureAnim.idleLoop, ih, addLast_with_trace, addLast_iterate_with_trace,
      Function.iterate_succ_apply]
    simp only [List.append_assoc, List.singleton_append, List.replicate_succ]

/-- C17, as stated, fails: for a war machine on a frame store where HOLDING
has 1 frame and MOVING has 4 frames there are two candidates, and with the
draw `rnd = 2` the code takes the idle branch, selects MOVING although HOLDING
has frames, and calls `addLast(MOVING)` 12/4 + 1 = 4 times; the claim asks for
13 calls of `addLast(HOLDING)`. -/
theorem loopPreview_idle_prefers_moving :
    (0 < (scenarioAnim 0).size exampleDecls.HOLDING ∧
      (CCreatureAnim.available exampleDecls (scenarioAnim 0) true).length = 2) ∧
    (CCreatureAnim.loopPreview exampleDecls (scenarioAnim 0) 2 true scenarioState).map
        (fun r => r.queue)
      = some [20, 0, 20, 0, 20, 0, 20, 0] ∧
    (CCreatureAnim.loopPreview exampleDecls (scenarioAnim 0) 2 true scenarioState).map
        (fun r => { r with trace := [] })
      = some ((fun t => CCreatureAnim.addLast exampleDecls t exampleDecls.MOVING)^[4]
          scenarioState) ∧
    (CCreatureAnim.loopPreview exampleDecls (scenarioAnim 0) 2 true scenarioState).map
        (fun r => r.queue)
      ≠ some ((fun t => CCreatureAnim.addLast exampleDecls t exampleDecls.HOLDING)^[13]
          scenarioState).queue := by
  decide

/-- C17 (amended): when HOLDING or MOVING has at least one frame and the draw
`rnd` is `>= candidateCount`, `loopPreview` selects MOVING if MOVING has at
least one frame and HOLDING otherwise, and passes the selected group to
`addLast` exactly `12 / size(selected) + 1` times; besides that it only
records size queries. -/
theorem loopPreview_idle (D : Decls) (anim : CAnimation) (rnd : Nat) (warMachine : Bool)
    (s : CShowableAnim)
    (hfr : 0 < anim.size D.HOLDING ∨ 0 < anim.size D.MOVING)
    (hrnd : (CCreatureAnim.available D anim warMachine).length ≤ rnd) :
    CCreatureAnim.loopPreview D anim rnd warMachine s
      = some { (fun t => CCreatureAnim.addLast D t
                  (if anim.size D.MOVING = 0 then D.HOLDING else D.MOVING))^[
                12 / anim.size (if anim.size D.MOVING = 0 then D.HOLDING else D.MOVING) + 1] s
               with trace := s.trace ++ (CCreatureAnim.previewList D warMachine).map Event.size ++
                 [Event.size D.MOVING] ++
                 (List.replicate
                   (12 / anim.size (if anim.size D.MOVING = 0 then D.HOLDING else D.MOVING) + 1 + 1)
                   (Event.size (if anim.size D.MOVING = 0 then D.HOLDING else D.MOVING))) } := by
  have hsel : anim.size (if anim.size D.MOVING = 0 then D.HOLDING else D.MOVING) ≠ 0 := by
    split_ifs with hm
    · omega
    · exact hm
  unfold CCreatureAnim.loopPreview
  dsimp only
  rw [dif_pos hrnd, if_neg hsel, idleLoop_eq, addLast_iterate_with_trace]

/-- Instance of the idle branch: a war machine on the scenario frame store,
with the draw 2 of two candidates. -/
theorem loopPreview_idle_witness :
    ((0 < (scenarioAnim 0).size exampleDecls.HOLDING ∨
        0 < (scenarioAnim 0).size exampleDecls.MOVING) ∧
      (CCreatureAnim.available exampleDecls (scenarioAnim 0) true).length ≤ 2) ∧
    (CCreatureAnim.loopPreview exampleDecls (scenarioAnim 0) 2 true scenarioState).map
        (fun r => r.queue)
      = some [20, 0, 20, 0, 20, 0, 20, 0] :=
  ⟨by decide,
   (congrArg (Option.map (fun r => r.queue))
      (loopPreview_idle exampleDecls (scenarioAnim 0) 2 true scenarioState (by decide)
        (by decide))).trans (by decide)⟩

/-- C18: the candidate list of `loopPreview` is made of the groups of the fixed
priority list (HOLDING, HITTED, DEFENCE, ATTACK_FRONT, CAST_FRONT for
creatures; HOLDING, MOVING, SHOOT_UP, SHOOT_FRONT, SHOOT_DOWN for war machines)
that have at least one frame, in list order; and when the draw `rnd` is
`< candidateCount`, `loopPreview` records the size queries and calls `addLast`
exactly once, with `candidate[rnd]`.  When that candidate is not a turn, the
queue gains it exactly once, after at most one MOVE_START or MOVE_END. -/
theorem loopPreview_select (D : Decls) (anim : CAnimation) (rnd : Nat) (warMachine : Bool)
    (s : CShowableAnim) :
    CCreatureAnim.previewList D false
      = [D.HOLDING, D.HITTED, D.DEFENCE, D.ATTACK_FRONT, D.CAST_FRONT] ∧
    CCreatureAnim.previewList D true
      = [D.HOLDING, D.MOVING, D.SHOOT_UP, D.SHOOT_FRONT, D.SHOOT_DOWN] ∧
    List.Sublist (CCreatureAnim.available D anim warMachine)
      (CCreatureAnim.previewList D warMachine) ∧
    (∀ g, g ∈ CCreatureAnim.available D anim warMachine ↔
      g ∈ CCreatureAnim.previewList D warMachine ∧ 0 < anim.size g) ∧
    ∀ h : rnd < (CCreatureAnim.available D anim warMachine).length,
      CCreatureAnim.loopPreview D anim rnd warMachine s
        = some (CCreatureAnim.addLast D
            { s with trace := s.trace ++
                (CCreatureAnim.previewList D warMachine).map Event.size }
            ((CCreatureAnim.available D anim warMachine).get ⟨rnd, h⟩)) ∧
      ((CCreatureAnim.available D anim warMachine).get ⟨rnd, h⟩ ≠ D.TURN_L ∧
        (CCreatureAnim.available D anim warMachine).get ⟨rnd, h⟩ ≠ D.TURN_R →
        ∃ r bridge, CCreatureAnim.loopPreview D anim rnd warMachine s = some r ∧
          (bridge = [] ∨ bridge = [D.MOVE_START] ∨ bridge = [D.MOVE_END]) ∧
          r.queue = s.queue ++ bridge ++
            [(CCreatureAnim.available D anim warMachine).get ⟨rnd, h⟩]) := by
  refine ⟨rfl, rfl, List.filter_sublist _, ?_, ?_⟩
  · intro g
    unfold CCreatureAnim.available
    rw [List.mem_filter]
    simp only [ne_eq, decide_not, Bool.not_eq_true', decide_eq_false_iff_not]
    constructor
    · rintro ⟨h1, h2⟩
      exact ⟨h1, by omega⟩
    · rintro ⟨h1, h2⟩
      exact ⟨h1, by omega⟩
  · intro h
    have hlp : CCreatureAnim.loopPreview D anim rnd warMachine s
        = some (CCreatureAnim.addLast D
            { s with trace := s.trace ++
                (CCreatureAnim.previewList D warMachine).map Event.size }
            ((CCreatureAnim.available D anim warMachine).get ⟨rnd, h⟩)) := by
      unfold CCreatureAnim.loopPreview
      dsimp only
      rw [dif_neg (by omega)]
    refine ⟨hlp, ?_⟩
    rintro ⟨hl, hr⟩
    have hturn : ¬ ((CCreatureAnim.available D anim warMachine).get ⟨rnd, h⟩ = D.TURN_L ∨
        (CCreatureAnim.available D anim warMachine).get ⟨rnd, h⟩ = D.TURN_R) := by
      rintro (c | c)
      · exact hl c
      · exact hr c
    rw [hlp]
    generalize (CCreatureAnim.available D anim warMachine).get ⟨rnd, h⟩ = cand at hturn ⊢
    by_cases h1 : s.type ≠ D.MOVING ∧ cand = D.MOVING
    · refine ⟨_, [D.MOVE_START], rfl, Or.inr (Or.inl rfl), ?_⟩
      simp only [CCreatureAnim.addLast, if_pos h1, if_neg hturn, List.append_assoc]
    · by_cases h2 : s.type = D.MOVING ∧ cand ≠ D.MOVING
      · refine ⟨_, [D.MOVE_END], rfl, Or.inr (Or.inr rfl), ?_⟩
        simp only [CCreatureAnim.addLast, if_neg h1, if_pos h2, if_neg hturn, List.append_assoc]
      · refine ⟨_, [], rfl, Or.inl rfl, ?_⟩
        simp only [CCreatureAnim.addLast, if_neg h1, if_neg h2, if_neg hturn, List.append_nil]

/-- Instance of the select branch: a creature with the candidates HOLDING (1
frame) and ATTACK_FRONT (6 frames) and the draw 1 enqueues ATTACK_FRONT
once. -/
theorem loopPreview_select_witness :
    1 < (CCreatureAnim.available exampleDecls previewAnim false).length ∧
    CCreatureAnim.available exampleDecls previewAnim false
      = [exampleDecls.HOLDING, exampleDecls.ATTACK_FRONT] ∧
    (CCreatureAnim.loopPreview exampleDecls previewAnim 1 false scenarioState).map
        (fun r => r.queue)
      = some [exampleDecls.ATTACK_FRONT] :=
  ⟨by decide, by decide,
   (congrArg (Option.map (fun r => r.queue))
      ((loopPreview_select exampleDecls previewAnim 1 false scenarioState).2.2.2.2
        (by decide)).1).trans (by decide)⟩

end Images

namespace JsonDeserializer

/-! ## Membership in the sets that the loops build -/

/-- Inserting every element of a list: the result holds what was there and the
elements of the list. -/
theorem mem_foldl_insert (l : List Int) :
    ∀ (a : List Int) (x : Int),
      x ∈ l.foldl (fun acc item => acc.insert item) a ↔ x ∈ a ∨ x ∈ l := by
  induction l with
  | nil => intro a x; simp
  | cons y l ih =>
    intro a x
    rw [List.foldl_cons, ih, List.mem_insert_iff, List.mem_cons]
    constructor
    · rintro ((h | h) | h)
      · exact Or.inr (Or.inl h)
      · exact Or.inl h
      · exact Or.inr (Or.inr h)
    · rintro (h | h | h)
      · exact Or.inl (Or.inr h)
      · exact Or.inl (Or.inl h)
      · exact Or.inr h

/-- The set version of `readLICPart` keeps what was there and adds the decoded
ids other than -1. -/
theorem mem_readLICPart_set (decoder : String → Int) (part : List String) :
    ∀ (value : List Int) (x : Int),
      x ∈ readLICPart_set part decoder value ↔
        x ∈ value ∨ (x ≠ -1 ∧ decoded part decoder x) := by
  unfold readLICPart_set decoded
  induction part with
  | nil => intro value x; simp
  | cons identifier part ih =>
    intro value x
    rw [List.foldl_cons, ih]
    by_cases hid : decoder identifier ≠ -1
    · simp only [if_pos hid, List.mem_insert_iff, List.mem_cons, exists_eq_or_imp]
      constructor
      · rintro ((h | h) | ⟨h1, h2⟩)
        · exact Or.inr ⟨by rw [h]; exact hid, Or.inl h.symm⟩
        · exact Or.inl h
        · exact Or.inr ⟨h1, Or.inr h2⟩
      · rintro (h | ⟨h1, h2 | h2⟩)
        · exact Or.inl (Or.inr h)
        · exact Or.inl (Or.inl h2.symm)
        · exact Or.inr ⟨h1, h2⟩
    · simp only [if_neg hid, List.mem_cons, exists_eq_or_imp]
      constructor
      · rintro (h | ⟨h1, h2⟩)
        · exact Or.inl h
        · exact Or.inr ⟨h1, Or.inr h2⟩
      · rintro (h | ⟨h1, h2 | h2⟩)
        · exact Or.inl h
        · exact absurd (by rw [← h2]; exact not_not.mp hid) h1
        · exact Or.inr ⟨h1, h2⟩

/-- The loop over `standard` in restrictive mode adds to `none` the standard
items that are not in `any`. -/
theorem mem_foldl_banned (any : List Int) (standard : List Int) :
    ∀ (none : List Int) (x : Int),
      x ∈ standard.foldl (fun acc item => if item ∈ any then acc else acc.insert item) none ↔
        x ∈ none ∨ (x ∈ standard ∧ x ∉ any) := by
  induction standard with
  | nil => intro none x; simp
  | cons y l ih =>
    intro none x
    rw [List.foldl_cons, ih]
    by_cases hy : y ∈ any
    · simp only [if_pos hy, List.mem_cons]
      constructor
      · rintro (h | ⟨h1, h2⟩)
        · exact Or.inl h
        · exact Or.inr ⟨Or.inr h1, h2⟩
      · rintro (h | ⟨h1 | h1, h2⟩)
        · exact Or.inl h
        · exact absurd (h1 ▸ hy) h2
        · exact Or.inr ⟨h1, h2⟩
    · simp only [if_neg hy, List.mem_insert_iff, List.mem_cons]
      constructor
      · rintro ((h | h) | ⟨h1, h2⟩)
        · exact Or.inr ⟨Or.inl h, by rw [h]; exact hy⟩
        · exact Or.inl h
        · exact Or.inr ⟨Or.inr h1, h2⟩
      · rintro (h | ⟨h1 | h1, h2⟩)
        · exact Or.inl (Or.inr h)
        · exact Or.inl (Or.inl h1)
        · exact Or.inr ⟨h1, h2⟩

/-! ## serializeLIC on LICSet -/

/-- The three result sets of `serializeLIC(fieldName, LICSet &)`, written out:
`none` collects the unlisted standard items (restrictive mode) and the ids of
`noneOf`; `all` is the ids of `allOf` that are not banned; `any` is the
allowed ids that are not banned, together with `all`. -/
theorem serializeLIC_LICSet_fields (field : LICField) (value : LICSet) :
    (serializeLIC_LICSet field value).none
      = readLICPart_set field.noneOf value.decoder
          (if field.anyOf.isEmpty then []
           else value.standard.foldl
            (fun acc item =>
              if item ∈ readLICPart_set field.anyOf value.decoder [] then acc
              else acc.insert item) []) ∧
    (serializeLIC_LICSet field value).all
      = (readLICPart_set field.allOf value.decoder []).filter
          (fun item => ¬ item ∈ (serializeLIC_LICSet field value).none) ∧
    (serializeLIC_LICSet field value).any
      = (serializeLIC_LICSet field value).all.foldl (fun acc item => acc.insert item)
          ((if field.anyOf.isEmpty then value.standard
            else readLICPart_set field.anyOf value.decoder []).filter
            (fun item => ¬ item ∈ (serializeLIC_LICSet field value).none)) := by
  unfold serializeLIC_LICSet
  dsimp only
  split_ifs <;> exact ⟨rfl, rfl, rfl⟩

/-- C19: after `serializeLIC(fieldName, LICSet &)`, `all` and `none` are
disjoint, `any` and `none` are disjoint, `all` is a subset of `any`, and when
`anyOf` is not empty (restrictive mode) every item of `standard` that no entry
of `anyOf` decodes to is in `none`. -/
theorem serializeLIC_LICSet_consistent (field : LICField) (value : LICSet) :
    (∀ x ∈ (serializeLIC_LICSet field value).all, x ∉ (serializeLIC_LICSet field value).none) ∧
    (∀ x ∈ (serializeLIC_LICSet field value).any, x ∉ (serializeLIC_LICSet field value).none) ∧
    (∀ x ∈ (serializeLIC_LICSet field value).all, x ∈ (serializeLIC_LICSet field value).any) ∧
    (field.anyOf ≠ [] → ∀ item ∈ value.standard,
      ¬ decoded field.anyOf value.decoder item →
      item ∈ (serializeLIC_LICSet field value).none) := by
  obtain ⟨hnone, hall, hany⟩ := serializeLIC_LICSet_fields field value
  have h1 : ∀ x ∈ (serializeLIC_LICSet field value).all,
      x ∉ (serializeLIC_LICSet field value).none := by
    intro x hx
    rw [hall, List.mem_filter] at hx
    exact of_decide_eq_true hx.2
  refine ⟨h1, ?_, ?_, ?_⟩
  · intro x hx
    rw [hany, mem_foldl_insert, List.mem_filter] at hx
    rcases hx with hx | hx
    · exact of_decide_eq_true hx.2
    · exact h1 x hx
  · intro x hx
    rw [hany, mem_foldl_insert]
    exact Or.inr hx
  · intro hne item hitem hdec
    have hemp : ¬ (field.anyOf.isEmpty = true) := by
      rw [List.isEmpty_iff]
      exact hne
    rw [hnone, if_neg hemp, mem_readLICPart_set, mem_foldl_banned, mem_readLICPart_set]
    refine Or.inl (Or.inr ⟨hitem, ?_⟩)
    rintro (h | ⟨_, h⟩)
    · cases h
    · exact hdec h

/-- Instance of the consistency of the result sets, in restrictive mode. -/
theorem serializeLIC_LICSet_consistent_witness :
    exampleField.anyOf ≠ [] ∧ (3 : Int) ∈ exampleLICSet.standard ∧
    ¬ decoded exampleField.anyOf exampleLICSet.decoder 3 ∧
    (3 : Int) ∈ (serializeLIC_LICSet exampleField exampleLICSet).none :=
  ⟨by decide, by decide, by decide,
   (serializeLIC_LICSet_consistent exampleField exampleLICSet).2.2.2 (by decide) 3 (by decide)
     (by decide)⟩

/-! ## serializeLIC on a vector of booleans -/

/-- One round of the loop of the vector version of `readLICPart`. -/
theorem readLICPart_vector_cons (decoder : String → Int) (val : Bool) (identifier : String)
    (part : List String) (acc : List Bool × List Int) :
    readLICPart_vector (identifier :: part) decoder val acc
      = readLICPart_vector part decoder val
          (if decoder identifier ≥ 0 then
            if (decoder identifier).toNat < acc.1.length then
              (acc.1.set (decoder identifier).toNat val, acc.2)
            else (acc.1, acc.2 ++ [decoder identifier])
          else acc) := rfl

/-- The vector version of `readLICPart` keeps the length. -/
theorem readLICPart_vector_length (decoder : String → Int) (val : Bool) (part : List String) :
    ∀ acc : List Bool × List Int,
      (readLICPart_vector part decoder val acc).1.length = acc.1.length := by
  induction part with
  | nil => intro acc; rfl
  | cons identifier part ih =>
    intro acc
    rw [readLICPart_vector_cons, ih]
    split_ifs <;> simp

/-- The vector version of `readLICPart` writes `val` at the positions that the
entries of `part` decode to, and leaves the other positions alone. -/
theorem readLICPart_vector_getElem? (decoder : String → Int) (val : Bool)
    (part : List String) :
    ∀ (acc : List Bool × List Int) (i : Nat), i < acc.1.length →
      (readLICPart_vector part decoder val acc).1[i]?
        = if decoded part decoder (i : Int) then some val else acc.1[i]? := by
  induction part with
  | nil =>
    intro acc i _
    have hno : ¬ decoded [] decoder (i : Int) := by
      rintro ⟨x, hx, _⟩
      cases hx
    rw [if_neg hno]
    rfl
  | cons identifier part ih =>
    intro acc i hi
    have hcons : decoded (identifier :: part) decoder (i : Int) ↔
        decoder identifier = (i : Int) ∨ decoded part decoder (i : Int) := by
      unfold decoded
      simp only [List.mem_cons, exists_eq_or_imp]
    rw [readLICPart_vector_cons]
    by_cases hpos : decoder identifier ≥ 0
    · by_cases hlt : (decoder identifier).toNat < acc.1.length
      · rw [if_pos hpos, if_pos hlt, ih _ i (by simpa using hi)]
        by_cases hrest : decoded part decoder (i : Int)
        · rw [if_pos hrest, if_pos (hcons.mpr (Or.inr hrest))]
        · rw [if_neg hrest]
          by_cases hid : decoder identifier = (i : Int)
          · have hti : (decoder identifier).toNat = i := by omega
            rw [if_pos (hcons.mpr (Or.inl hid))]
            simp only [hti, List.getElem?_set_self hi]
          · have hti : (decoder identifier).toNat ≠ i := by omega
            have hno : ¬ decoded (identifier :: part) decoder (i : Int) := by
              rw [hcons]
              rintro (c | c)
              · exact hid c
              · exact hrest c
            rw [if_neg hno]
            simp only [List.getElem?_set_ne hti]
      · rw [if_pos hpos, if_neg hlt, ih (acc.1, acc.2 ++ [decoder identifier]) i hi]
        have hid : ¬ decoder identifier = (i : Int) := by omega
        simp only [hcons, hid, false_or]
    · rw [if_neg hpos, ih acc i hi]
      have hid : ¬ decoder identifier = (i : Int) := by omega
      simp only [hcons, hid, false_or]

/-- Identifiers that decode to a negative id or to an id beyond the end of the
vector do not change it. -/
theorem readLICPart_vector_out_of_range (decoder : String → Int) (val : Bool)
    (part : List String) :
    ∀ acc : List Bool × List Int,
      (∀ identifier ∈ part,
        decoder identifier < 0 ∨ (acc.1.length : Int) ≤ decoder identifier) →
      (readLICPart_vector part decoder val acc).1 = acc.1 := by
  induction part with
  | nil => intro acc _; rfl
  | cons identifier part ih =>
    intro acc h
    rw [readLICPart_vector_cons]
    have hid := h identifier (by simp)
    have hrest : ∀ x ∈ part, decoder x < 0 ∨ (acc.1.length : Int) ≤ decoder x :=
      fun x hx => h x (by simp [hx])
    by_cases hpos : decoder identifier ≥ 0
    · have hlt : ¬ (decoder identifier).toNat < acc.1.length := by omega
      rw [if_pos hpos, if_neg hlt]
      exact ih (acc.1, acc.2 ++ [decoder identifier]) hrest
    · rw [if_neg hpos]
      exact ih acc hrest

/-- C20: for `serializeLIC(fieldName, decoder, encoder, standard, value)`: if
the field is null, `value` is left unchanged; otherwise the resulting `value`
has length `standard.size()`, every position that a `noneOf` entry decodes to
is false, and every other position equals `standard` at that position when
both `anyOf` and `allOf` are empty (permissive mode), and otherwise
(restrictive mode) is true exactly when an `anyOf` or `allOf` entry decodes to
it.  Identifiers that decode to a negative id or to an id `>= size` never
change the vector that `readLICPart` writes to. -/
theorem serializeLIC_vector_spec (field : LICField) (decoder : String → Int)
    (standard value : List Bool) :
    (field.isNull = true → (serializeLIC_vector field decoder standard value).1 = value) ∧
    (field.isNull = false →
      (serializeLIC_vector field decoder standard value).1.length = standard.length ∧
      ∀ (i : Nat) (h : i < standard.length),
        (serializeLIC_vector field decoder standard value).1[i]?
          = some (if decoded field.noneOf decoder (i : Int) then false
              else if field.anyOf = [] ∧ field.allOf = [] then standard[i]
              else decide (decoded field.anyOf decoder (i : Int) ∨
                decoded field.allOf decoder (i : Int)))) ∧
    (∀ (part : List String) (val : Bool) (acc : List Bool × List Int),
      (∀ identifier ∈ part,
        decoder identifier < 0 ∨ (acc.1.length : Int) ≤ decoder identifier) →
      (readLICPart_vector part decoder val acc).1 = acc.1) := by
  refine ⟨?_, ?_, fun part val acc h => readLICPart_vector_out_of_range decoder val part acc h⟩
  · intro hnull
    unfold serializeLIC_vector
    rw [if_pos hnull]
  · intro hnull
    have hn : ¬ (field.isNull = true) := by rw [hnull]; exact Bool.false_ne_true
    unfold serializeLIC_vector
    rw [if_neg hn]
    dsimp only
    by_cases hperm : field.anyOf.isEmpty = true ∧ field.allOf.isEmpty = true
    · have hperm2 : field.anyOf = [] ∧ field.allOf = [] :=
        ⟨List.isEmpty_iff.mp hperm.1, List.isEmpty_iff.mp hperm.2⟩
      rw [if_pos hperm]
      refine ⟨readLICPart_vector_length decoder false field.noneOf (standard, []), ?_⟩
      intro i h
      rw [readLICPart_vector_getElem? decoder false field.noneOf (standard, []) i h]
      by_cases hno : decoded field.noneOf decoder (i : Int)
      · rw [if_pos hno, if_pos hno]
      · rw [if_neg hno, if_neg hno, if_pos hperm2]
        exact List.getElem?_eq_getElem h
    · have hperm2 : ¬ (field.anyOf = [] ∧ field.allOf = []) := fun c =>
        hperm ⟨List.isEmpty_iff.mpr c.1, List.isEmpty_iff.mpr c.2⟩
      rw [if_neg hperm]
      have hlen1 : (readLICPart_vector field.anyOf decoder true
          (List.replicate standard.length false, [])).1.length = standard.length := by
        rw [readLICPart_vector_length]
        exact List.length_replicate _ _
      have hlen2 : (readLICPart_vector field.allOf decoder true
          (readLICPart_vector field.anyOf decoder true
            (List.replicate standard.length false, []))).1.length = standard.length := by
        rw [readLICPart_vector_length, hlen1]
      refine ⟨by rw [readLICPart_vector_length, hlen2], ?_⟩
      intro i h
      rw [readLICPart_vector_getElem? decoder false field.noneOf _ i (by rw [hlen2]; exact h),
        readLICPart_vector_getElem? decoder true field.allOf _ i (by rw [hlen1]; exact h),
        readLICPart_vector_getElem? decoder true field.anyOf _ i
          (by rw [List.length_replicate]; exact h)]
      have hrep : (List.replicate standard.length false)[i]? = some false := by
        rw [List.getElem?_replicate, if_pos h]
      by_cases hno : decoded field.noneOf decoder (i : Int)
      · rw [if_pos hno, if_pos hno]
      · rw [if_neg hno, if_neg hno, if_neg hperm2]
        by_cases hall : decoded field.allOf decoder (i : Int)
        · rw [if_pos hall, decide_eq_true (Or.inr hall)]
        · rw [if_neg hall]
          by_cases hany : decoded field.anyOf decoder (i : Int)
          · rw [if_pos hany, decide_eq_true (Or.inl hany)]
          · have hnone : ¬ (decoded field.anyOf decoder (i : Int) ∨
                decoded field.allOf decoder (i : Int)) := by
              rintro (c | c)
              · exact hany c
              · exact hall c
            rw [if_neg hany, decide_eq_false hnone]
            exact hrep

/-- Instance of the vector reader in restrictive mode: ids 0 and 2 are listed,
id 1 is listed and banned, "far" and "zzz" decode outside the vector. -/
theorem serializeLIC_vector_spec_witness :
    exampleField.isNull = false ∧
    (serializeLIC_vector exampleField exampleDecoder [true, true, true, true] [false]).1
      = [true, false, true, false] ∧
    (serializeLIC_vector exampleField exampleDecoder [true, true, true, true] [false]).1.length
      = 4 :=
  ⟨by decide, by decide,
   ((serializeLIC_vector_spec exampleField exampleDecoder [true, true, true, true]
      [false]).2.1 (by decide)).1⟩

end JsonDeserializer
